import Mathlib

/-!
Verification of the space resource lifecycle logic of
`internal/provider/space_resource.go` (terraform-provider-huggingface-spaces).

The Go code is shallowly embedded: the terraform-framework value types
(`types.String`, `types.Bool`, `types.Int64`, `types.Map`, `types.List`) become
small inductives carrying a null / unknown / value state; the injected HTTP
client becomes an explicit environment assigning an outcome to each remote
call site; `Update` and `Create` become functions returning the list of remote
calls issued (in order), the first error encountered (if any), and the working
copy of the state at the moment the function returned.
-/

/-- Embedding of `types.String`: null, unknown, or a known string value. -/
inductive TFString where
  | null
  | unknown
  | value (s : String)
deriving DecidableEq, Repr

/-- `types.String.ValueString()`: the known value, or `""` for null/unknown. -/
def TFString.valueString : TFString → String
  | .value s => s
  | _ => ""

/-- Embedding of `types.Bool`. -/
inductive TFBool where
  | null
  | unknown
  | value (b : Bool)
deriving DecidableEq, Repr

/-- `types.Bool.ValueBool()`: the known value, or `false` for null/unknown. -/
def TFBool.valueBool : TFBool → Bool
  | .value b => b
  | _ => false

/-- Embedding of `types.Int64`. -/
inductive TFInt where
  | null
  | unknown
  | value (n : Int)
deriving DecidableEq, Repr

/-- `types.Int64.ValueInt64()`: the known value, or `0` for null/unknown. -/
def TFInt.valueInt64 : TFInt → Int
  | .value n => n
  | _ => 0

/-- Embedding of `types.Map` with string elements (an ordered association
list stands in for the element map; the Go code only range-iterates it). -/
inductive TFMap where
  | null
  | unknown
  | value (m : List (String × String))
deriving DecidableEq, Repr

/-- `types.Map.IsNull()`. -/
def TFMap.isNull : TFMap → Bool
  | .null => true
  | _ => false

/-- `types.Map.IsUnknown()`. -/
def TFMap.isUnknown : TFMap → Bool
  | .unknown => true
  | _ => false

/-- `types.Map.Elements()` (empty for null/unknown). -/
def TFMap.elements : TFMap → List (String × String)
  | .value m => m
  | _ => []

/-- A map is unset when it is null or unknown: the code then skips the
whole sub-collection reconciliation. -/
def TFMap.unset (m : TFMap) : Bool := m.isNull || m.isUnknown

/-- Embedding of `types.List` with string elements (only carried through). -/
inductive TFList where
  | null
  | unknown
  | value (l : List String)
deriving DecidableEq, Repr

/-- Embedding of `SpaceResourceModel` (the `tfsdk`-tagged struct). -/
structure SpaceResourceModel where
  id : TFString
  name : TFString
  priv : TFBool
  sdk : TFString
  template : TFString
  secrets : TFMap
  vars : TFMap
  hardware : TFString
  host : TFString
  storage : TFString
  sleepTime : TFInt
  author : TFString
  lastModified : TFString
  likes : TFInt
  tags : TFList
deriving DecidableEq, Repr

/-- One remote HTTP call issued by the lifecycle code, identified by its
endpoint and the data interpolated into URL and body. -/
inductive ApiCall where
  | createRepo
  | renameSpace (fromRepo toRepo : String)
  | setVisibility (id : String) (priv : Bool)
  | fetchSecrets (id : String)
  | deleteSecret (id key : String)
  | addSecret (id key value : String)
  | fetchVariables (id : String)
  | deleteVariable (id key : String)
  | addVariable (id key value : String)
  | setHardware (id flavor : String)
  | setStorage (id tier : String)
  | setSleepTime (id : String) (seconds : Int)
deriving DecidableEq, Repr

/-- Which reconciliation step of `Update` a call belongs to
(1 rename, 2 visibility, 3 secrets, 4 variables, 5 hardware, 6 storage,
7 sleep time; 0 for the `Create` call). -/
def ApiCall.stepOf : ApiCall → Nat
  | .createRepo => 0
  | .renameSpace _ _ => 1
  | .setVisibility _ _ => 2
  | .fetchSecrets _ => 3
  | .deleteSecret _ _ => 3
  | .addSecret _ _ _ => 3
  | .fetchVariables _ => 4
  | .deleteVariable _ _ => 4
  | .addVariable _ _ _ => 4
  | .setHardware _ _ => 5
  | .setStorage _ _ => 6
  | .setSleepTime _ _ => 7

/-- True exactly for the three secrets sub-collection calls. -/
def ApiCall.touchesSecrets : ApiCall → Bool
  | .fetchSecrets _ => true
  | .deleteSecret _ _ => true
  | .addSecret _ _ _ => true
  | _ => false

/-- True exactly for the three variables sub-collection calls. -/
def ApiCall.touchesVariables : ApiCall → Bool
  | .fetchVariables _ => true
  | .deleteVariable _ _ => true
  | .addVariable _ _ _ => true
  | _ => false

/-- True exactly for a delete-secret call. -/
def ApiCall.isDeleteSecret : ApiCall → Bool
  | .deleteSecret _ _ => true
  | _ => false

/-- True exactly for a delete-variable call. -/
def ApiCall.isDeleteVariable : ApiCall → Bool
  | .deleteVariable _ _ => true
  | _ => false

/-- The first error `Update` can return, one constructor per
`resp.Diagnostics.AddError` site of the Go `Update` method. -/
inductive UErr where
  | renameTransport
  | renameReadBody
  | renameApi (status : Nat)
  | visibilityTransport
  | visibilityReadBody
  | visibilityApi (status : Nat)
  | secretsFetchTransport
  | secretsDecode
  | deleteSecretTransport (key : String)
  | deleteSecretApi (key : String) (status : Nat)
  | addSecretTransport (key : String)
  | addSecretApi (key : String) (status : Nat)
  | variablesFetchTransport
  | variablesDecode
  | deleteVariableTransport (key : String)
  | deleteVariableApi (key : String) (status : Nat)
  | addVariableTransport (key : String)
  | addVariableApi (key : String) (status : Nat)
  | hardwareTransport
  | hardwareApi (status : Nat)
  | hardwareDecode
  | storageTransport
  | storageApi (status : Nat)
  | storageDecode
  | sleepTimeTransport
  | sleepTimeApi (status : Nat)
  | sleepTimeDecode
deriving DecidableEq, Repr

/-- The reconciliation step an error originates from (numbering as in
`ApiCall.stepOf`). -/
def UErr.stepOf : UErr → Nat
  | .renameTransport | .renameReadBody | .renameApi _ => 1
  | .visibilityTransport | .visibilityReadBody | .visibilityApi _ => 2
  | .secretsFetchTransport | .secretsDecode => 3
  | .deleteSecretTransport _ | .deleteSecretApi _ _ => 3
  | .addSecretTransport _ | .addSecretApi _ _ => 3
  | .variablesFetchTransport | .variablesDecode => 4
  | .deleteVariableTransport _ | .deleteVariableApi _ _ => 4
  | .addVariableTransport _ | .addVariableApi _ _ => 4
  | .hardwareTransport | .hardwareApi _ | .hardwareDecode => 5
  | .storageTransport | .storageApi _ | .storageDecode => 6
  | .sleepTimeTransport | .sleepTimeApi _ | .sleepTimeDecode => 7

/-- Outcome of a call whose response body is only status-checked
(the sub-collection delete/add POSTs). `transport` also stands in for a
request-construction failure, which aborts identically in the Go code. -/
inductive CallOutcome where
  | transport
  | reply (status : Nat)

/-- Outcome of the rename and visibility calls, whose body is read with
`ioutil.ReadAll` before the status check: the read itself can fail. -/
inductive BodyOutcome where
  | transport
  | readFail
  | reply (status : Nat)

/-- Outcome of a sub-collection listing GET. When the status is 200 the body
is JSON-decoded: `none` models a decode failure, `some keys` the key set of
the decoded object. -/
inductive FetchOutcome where
  | transport
  | reply (status : Nat) (decoded : Option (List String))

/-- Outcome of the hardware / storage / sleep-time POSTs, whose 200 response
body is JSON-decoded (`decodeOk = false` models a decode failure). -/
inductive DecOutcome where
  | transport
  | reply (status : Nat) (decodeOk : Bool)

/-- The remote environment for one `Update` call: the outcome the injected
HTTP client produces at each call site (keyed calls get per-key outcomes). -/
structure UpdateEnv where
  renameSpace : BodyOutcome
  setVisibility : BodyOutcome
  fetchSecrets : FetchOutcome
  deleteSecret : String → CallOutcome
  addSecret : String → CallOutcome
  fetchVariables : FetchOutcome
  deleteVariable : String → CallOutcome
  addVariable : String → CallOutcome
  setHardware : DecOutcome
  setStorage : DecOutcome
  setSleepTime : DecOutcome

/-- Result of an `Update` pass: the remote calls issued in order, the first
error (none on success), and the working copy of `state` at return. -/
structure UpdRes where
  calls : List ApiCall
  error : Option UErr
  state : SpaceResourceModel
deriving DecidableEq, Repr

/-- Characters before the first slash. -/
def takeUntilSlash : List Char → List Char
  | [] => []
  | c :: cs => if c = '/' then [] else c :: takeUntilSlash cs

/-- `strings.Split(s, "/")[0]`: the segment before the first slash (the
whole string when it has no slash, empty for the empty string). -/
def ownerOf (s : String) : String := ⟨takeUntilSlash s.data⟩

/-- The delete loop over the keys of a fetched sub-collection: issue a
delete call per key, abort on the first transport error or non-200 status.
Returns the calls issued and the error, if any. -/
def runDeletes {E : Type} (out : String → CallOutcome) (mk : String → String → ApiCall)
    (mkTE : String → E) (mkAE : String → Nat → E) (id : String) :
    List String → List ApiCall × Option E
  | [] => ([], none)
  | k :: ks =>
    match out k with
    | .transport => ([mk id k], some (mkTE k))
    | .reply n =>
      if n = 200 then
        let rest := runDeletes out mk mkTE mkAE id ks
        (mk id k :: rest.1, rest.2)
      else ([mk id k], some (mkAE k n))

/-- The add loop over the desired key/value pairs: issue an add call per
pair, abort on the first transport error or non-200 status. -/
def runAdds {E : Type} (out : String → CallOutcome) (mk : String → String → String → ApiCall)
    (mkTE : String → E) (mkAE : String → Nat → E) (id : String) :
    List (String × String) → List ApiCall × Option E
  | [] => ([], none)
  | (k, v) :: rest =>
    match out k with
    | .transport => ([mk id k v], some (mkTE k))
    | .reply n =>
      if n = 200 then
        let r := runAdds out mk mkTE mkAE id rest
        (mk id k v :: r.1, r.2)
      else ([mk id k v], some (mkAE k n))

/-- Rename step of `Update` (space_resource.go lines 363-396): if the name
drifted, POST `/api/repos/move` with `fromRepo := state.ID` and
`toRepo := owner-of(state.ID) ++ "/" ++ data.Name`; on success write the new
identifier and name into the working state. -/
def renameCore (env : UpdateEnv) (data st : SpaceResourceModel) : UpdRes :=
  if st.name.valueString ≠ data.name.valueString then
    let fromRepo := st.id.valueString
    let toRepo := ownerOf st.id.valueString ++ "/" ++ data.name.valueString
    match env.renameSpace with
    | .transport => ⟨[.renameSpace fromRepo toRepo], some .renameTransport, st⟩
    | .readFail => ⟨[.renameSpace fromRepo toRepo], some .renameReadBody, st⟩
    | .reply n =>
      if n = 200 then
        ⟨[.renameSpace fromRepo toRepo], none, { st with id := .value toRepo, name := data.name }⟩
      else ⟨[.renameSpace fromRepo toRepo], some (.renameApi n), st⟩
  else ⟨[], none, st⟩

/-- Visibility step (lines 398-432): if `state.Private != data.Private`,
PUT `/api/spaces/{data.ID}/settings`. The Go code never copies
`data.Private` into `state` on success; the working state is unchanged. -/
def visibilityCore (env : UpdateEnv) (data st : SpaceResourceModel) : UpdRes :=
  if st.priv ≠ data.priv then
    match env.setVisibility with
    | .transport => ⟨[.setVisibility data.id.valueString data.priv.valueBool], some .visibilityTransport, st⟩
    | .readFail => ⟨[.setVisibility data.id.valueString data.priv.valueBool], some .visibilityReadBody, st⟩
    | .reply n =>
      if n = 200 then ⟨[.setVisibility data.id.valueString data.priv.valueBool], none, st⟩
      else ⟨[.setVisibility data.id.valueString data.priv.valueBool], some (.visibilityApi n), st⟩
  else ⟨[], none, st⟩

/-- Secrets step (lines 434-497): when the desired secrets map is set,
GET the current secrets; on a 200 listing delete every listed key; on any
other status skip deletion; then add every desired pair; on full success
set the working state's secrets to exactly the desired map. -/
def secretsCore (env : UpdateEnv) (data st : SpaceResourceModel) : UpdRes :=
  if !data.secrets.isNull && !data.secrets.isUnknown then
    let id := data.id.valueString
    match env.fetchSecrets with
    | .transport => ⟨[.fetchSecrets id], some .secretsFetchTransport, st⟩
    | .reply n decoded =>
      if n = 200 then
        match decoded with
        | none => ⟨[.fetchSecrets id], some .secretsDecode, st⟩
        | some keys =>
          let dres := runDeletes env.deleteSecret ApiCall.deleteSecret
            UErr.deleteSecretTransport UErr.deleteSecretApi id keys
          match dres.2 with
          | some e => ⟨.fetchSecrets id :: dres.1, some e, st⟩
          | none =>
            let ares := runAdds env.addSecret ApiCall.addSecret
              UErr.addSecretTransport UErr.addSecretApi id data.secrets.elements
            match ares.2 with
            | some e => ⟨.fetchSecrets id :: (dres.1 ++ ares.1), some e, st⟩
            | none =>
              ⟨.fetchSecrets id :: (dres.1 ++ ares.1), none,
                { st with secrets := .value data.secrets.elements }⟩
      else
        let ares := runAdds env.addSecret ApiCall.addSecret
          UErr.addSecretTransport UErr.addSecretApi id data.secrets.elements
        match ares.2 with
        | some e => ⟨.fetchSecrets id :: ares.1, some e, st⟩
        | none => ⟨.fetchSecrets id :: ares.1, none,
            { st with secrets := .value data.secrets.elements }⟩
  else ⟨[], none, st⟩

/-- Variables step (lines 499-563): identical to the secrets step against
the variables endpoints. -/
def variablesCore (env : UpdateEnv) (data st : SpaceResourceModel) : UpdRes :=
  if !data.vars.isNull && !data.vars.isUnknown then
    let id := data.id.valueString
    match env.fetchVariables with
    | .transport => ⟨[.fetchVariables id], some .variablesFetchTransport, st⟩
    | .reply n decoded =>
      if n = 200 then
        match decoded with
        | none => ⟨[.fetchVariables id], some .variablesDecode, st⟩
        | some keys =>
          let dres := runDeletes env.deleteVariable ApiCall.deleteVariable
            UErr.deleteVariableTransport UErr.deleteVariableApi id keys
          match dres.2 with
          | some e => ⟨.fetchVariables id :: dres.1, some e, st⟩
          | none =>
            let ares := runAdds env.addVariable ApiCall.addVariable
              UErr.addVariableTransport UErr.addVariableApi id data.vars.elements
            match ares.2 with
            | some e => ⟨.fetchVariables id :: (dres.1 ++ ares.1), some e, st⟩
            | none =>
              ⟨.fetchVariables id :: (dres.1 ++ ares.1), none,
                { st with vars := .value data.vars.elements }⟩
      else
        let ares := runAdds env.addVariable ApiCall.addVariable
          UErr.addVariableTransport UErr.addVariableApi id data.vars.elements
        match ares.2 with
        | some e => ⟨.fetchVariables id :: ares.1, some e, st⟩
        | none => ⟨.fetchVariables id :: ares.1, none,
            { st with vars := .value data.vars.elements }⟩
  else ⟨[], none, st⟩

/-- Hardware step (lines 565-590): if the hardware value string drifted,
POST `/api/spaces/{data.ID}/hardware`; after a 200 the body is decoded; on
full success overwrite the working state's hardware with the desired value. -/
def hardwareCore (env : UpdateEnv) (data st : SpaceResourceModel) : UpdRes :=
  if st.hardware.valueString ≠ data.hardware.valueString then
    match env.setHardware with
    | .transport => ⟨[.setHardware data.id.valueString data.hardware.valueString], some .hardwareTransport, st⟩
    | .reply n dec =>
      if n = 200 then
        if dec then
          ⟨[.setHardware data.id.valueString data.hardware.valueString], none,
            { st with hardware := data.hardware }⟩
        else ⟨[.setHardware data.id.valueString data.hardware.valueString], some .hardwareDecode, st⟩
      else ⟨[.setHardware data.id.valueString data.hardware.valueString], some (.hardwareApi n), st⟩
  else ⟨[], none, st⟩

/-- Storage step (lines 592-617), same shape as the hardware step. -/
def storageCore (env : UpdateEnv) (data st : SpaceResourceModel) : UpdRes :=
  if st.storage.valueString ≠ data.storage.valueString then
    match env.setStorage with
    | .transport => ⟨[.setStorage data.id.valueString data.storage.valueString], some .storageTransport, st⟩
    | .reply n dec =>
      if n = 200 then
        if dec then
          ⟨[.setStorage data.id.valueString data.storage.valueString], none,
            { st with storage := data.storage }⟩
        else ⟨[.setStorage data.id.valueString data.storage.valueString], some .storageDecode, st⟩
      else ⟨[.setStorage data.id.valueString data.storage.valueString], some (.storageApi n), st⟩
  else ⟨[], none, st⟩

/-- Sleep-time step (lines 619-644), same shape as the hardware step with
an integer comparison. -/
def sleepTimeCore (env : UpdateEnv) (data st : SpaceResourceModel) : UpdRes :=
  if st.sleepTime.valueInt64 ≠ data.sleepTime.valueInt64 then
    match env.setSleepTime with
    | .transport => ⟨[.setSleepTime data.id.valueString data.sleepTime.valueInt64], some .sleepTimeTransport, st⟩
    | .reply n dec =>
      if n = 200 then
        if dec then
          ⟨[.setSleepTime data.id.valueString data.sleepTime.valueInt64], none,
            { st with sleepTime := data.sleepTime }⟩
        else ⟨[.setSleepTime data.id.valueString data.sleepTime.valueInt64], some .sleepTimeDecode, st⟩
      else ⟨[.setSleepTime data.id.valueString data.sleepTime.valueInt64], some (.sleepTimeApi n), st⟩
  else ⟨[], none, st⟩

/-- Sequence one reconciliation step after an accumulated result: the Go
`return` on error skips all later steps. -/
def step (core : SpaceResourceModel → UpdRes) (r : UpdRes) : UpdRes :=
  match r.error with
  | some _ => r
  | none =>
    let s := core r.state
    ⟨r.calls ++ s.calls, s.error, s.state⟩

/-- Embedding of `SpaceResource.Update` (lines 348-647): the fixed sequence
rename, visibility, secrets, variables, hardware, storage, sleep time,
aborting at the first error, threading the working copy of `state`. -/
def updateSpace (env : UpdateEnv) (data state : SpaceResourceModel) : UpdRes :=
  step (sleepTimeCore env data)
    (step (storageCore env data)
      (step (hardwareCore env data)
        (step (variablesCore env data)
          (step (secretsCore env data)
            (step (visibilityCore env data)
              (renameCore env data state))))))

mutual
/-- JSON values, as far as the embedded code needs them: strings, integers,
booleans and objects (an object body is a `JFields` list). -/
inductive Json where
  | str (s : String)
  | num (n : Int)
  | jbool (b : Bool)
  | obj (fs : JFields)
inductive JFields where
  | nil
  | cons (k : String) (v : Json) (rest : JFields)
end

/-- Rendering of a Go `%t` verb. -/
def boolStr (b : Bool) : String := if b then "true" else "false"

/-- Rendering of a Go `%d` verb on an integer. -/
def intStr (n : Int) : String := toString n

/-- Lower-case hex digit. -/
def hexDigit (n : Nat) : Char :=
  if n < 10 then Char.ofNat (48 + n) else Char.ofNat (87 + n)

/-- JSON escaping of one character: quote, backslash and control characters
are escaped, everything else is passed through. -/
def escChar (c : Char) : String :=
  if c = '"' then "\\\""
  else if c = '\\' then "\\\\"
  else if c = '\n' then "\\n"
  else if c = '\r' then "\\r"
  else if c = '\t' then "\\t"
  else if c.toNat < 32 then
    "\\u00" ++ String.mk [hexDigit (c.toNat / 16), hexDigit (c.toNat % 16)]
  else String.singleton c

/-- JSON escaping of a character list. -/
def escList : List Char → List Char
  | [] => []
  | c :: cs => (escChar c).data ++ escList cs

/-- JSON escaping of a string. -/
def escape (s : String) : String := ⟨escList s.data⟩

mutual
/-- Structured JSON serialization, accumulator style (the accumulator is the
already-rendered text to the right of the current value). -/
def Json.renderAcc : Json → String → String
  | .str s, acc => "\"" ++ (escape s ++ ("\"" ++ acc))
  | .num n, acc => intStr n ++ acc
  | .jbool b, acc => boolStr b ++ acc
  | .obj fs, acc => "\x7b" ++ JFields.renderAcc fs ("\x7d" ++ acc)
def JFields.renderAcc : JFields → String → String
  | .nil, acc => acc
  | .cons k v rest, acc =>
    "\"" ++ (escape k ++ ("\": " ++
      Json.renderAcc v (match rest with
        | .nil => acc
        | .cons k2 v2 r2 => ", " ++ JFields.renderAcc (.cons k2 v2 r2) acc)))
end

/-- Structured JSON serialization of a value. -/
def Json.render (j : Json) : String := Json.renderAcc j ""

/-- A character no JSON serializer needs to escape: not a quote, not a
backslash, not a control character. -/
def benignChar (c : Char) : Bool := (c != '"') && (c != '\\') && (32 ≤ c.toNat)

/-- A string made of benign characters only. -/
def benignStr (s : String) : Bool := s.data.all benignChar

/-- Create request body (space_resource.go line 171): built by
`fmt.Sprintf` with `%s`/`%t`/`%d` verbs, no escaping of the field values. -/
def createReqBody (d : SpaceResourceModel) : String :=
  "\x7b\"type\": \"space\", \"name\": \"" ++ (d.name.valueString ++
  ("\", \"private\": " ++ (boolStr d.priv.valueBool ++
  (", \"sdk\": \"" ++ (d.sdk.valueString ++
  ("\", \"template\": \"" ++ (d.template.valueString ++
  ("\", \"hardware\": \"" ++ (d.hardware.valueString ++
  ("\", \"storage\": \"" ++ (d.storage.valueString ++
  ("\", \"sleepTime\": " ++ (intStr d.sleepTime.valueInt64 ++ "\x7d")))))))))))))

/-- The JSON object the create request body is meant to carry. -/
def createJson (d : SpaceResourceModel) : Json :=
  .obj (.cons "type" (.str "space")
    (.cons "name" (.str d.name.valueString)
      (.cons "private" (.jbool d.priv.valueBool)
        (.cons "sdk" (.str d.sdk.valueString)
          (.cons "template" (.str d.template.valueString)
            (.cons "hardware" (.str d.hardware.valueString)
              (.cons "storage" (.str d.storage.valueString)
                (.cons "sleepTime" (.num d.sleepTime.valueInt64) .nil))))))))

/-- Rename request body (line 370). -/
def renameReqBody (fromRepo toRepo : String) : String :=
  "\x7b\"fromRepo\": \"" ++ (fromRepo ++ ("\", \"toRepo\": \"" ++ (toRepo ++ "\", \"type\": \"space\"\x7d")))

/-- The JSON object the rename body is meant to carry. -/
def renameJson (fromRepo toRepo : String) : Json :=
  .obj (.cons "fromRepo" (.str fromRepo)
    (.cons "toRepo" (.str toRepo) (.cons "type" (.str "space") .nil)))

/-- Visibility request body (line 402). -/
def visibilityReqBody (b : Bool) : String :=
  "\x7b\"private\": " ++ (boolStr b ++ "\x7d")

/-- The JSON object the visibility body is meant to carry. -/
def visibilityJson (b : Bool) : Json := .obj (.cons "private" (.jbool b) .nil)

/-- Add-key request body for secrets and variables
(lines 215, 235, 482, 547). -/
def kvReqBody (k v : String) : String :=
  "\x7b\"key\": \"" ++ (k ++ ("\", \"value\": \"" ++ (v ++ "\"\x7d")))

/-- The JSON object the add-key body is meant to carry. -/
def kvJson (k v : String) : Json :=
  .obj (.cons "key" (.str k) (.cons "value" (.str v) .nil))

/-- Delete-key request body for secrets and variables (lines 455, 520). -/
def keyReqBody (k : String) : String := "\x7b\"key\": \"" ++ (k ++ "\"\x7d")

/-- The JSON object the delete-key body is meant to carry. -/
def keyJson (k : String) : Json := .obj (.cons "key" (.str k) .nil)

/-- Hardware request body (line 568). -/
def hardwareReqBody (flavor : String) : String :=
  "\x7b\"flavor\": \"" ++ (flavor ++ "\"\x7d")

/-- The JSON object the hardware body is meant to carry. -/
def hardwareJson (flavor : String) : Json := .obj (.cons "flavor" (.str flavor) .nil)

/-- Storage request body (line 595). -/
def storageReqBody (tier : String) : String :=
  "\x7b\"tier\": \"" ++ (tier ++ "\"\x7d")

/-- The JSON object the storage body is meant to carry. -/
def storageJson (tier : String) : Json := .obj (.cons "tier" (.str tier) .nil)

/-- Sleep-time request body (line 622). -/
def sleepTimeReqBody (seconds : Int) : String :=
  "\x7b\"seconds\": " ++ (intStr seconds ++ "\x7d")

/-- The JSON object the sleep-time body is meant to carry. -/
def sleepTimeJson (seconds : Int) : Json := .obj (.cons "seconds" (.num seconds) .nil)

/-- Delete request body (line 660). -/
def deleteReqBody (name : String) : String :=
  "\x7b\"type\": \"space\", \"name\": \"" ++ (name ++ "\"\x7d")

/-- The JSON object the delete body is meant to carry. -/
def deleteJson (name : String) : Json :=
  .obj (.cons "type" (.str "space") (.cons "name" (.str name) .nil))

/-- A benign character is passed through unchanged by the JSON escaper. -/
theorem escChar_id (c : Char) (h : benignChar c = true) : escChar c = String.singleton c := by
  simp only [benignChar, Bool.and_eq_true, bne_iff_ne, ne_eq, decide_eq_true_eq] at h
  obtain ⟨⟨h1, h2⟩, h3⟩ := h
  unfold escChar
  rw [if_neg h1, if_neg h2,
    if_neg (fun hc => absurd h3 (by subst hc; decide)),
    if_neg (fun hc => absurd h3 (by subst hc; decide)),
    if_neg (fun hc => absurd h3 (by subst hc; decide)),
    if_neg (by omega)]

/-- A list of benign characters is passed through unchanged. -/
theorem escList_id : ∀ cs : List Char, cs.all benignChar = true → escList cs = cs
  | [], _ => rfl
  | c :: cs, h => by
    rw [List.all_cons, Bool.and_eq_true] at h
    unfold escList
    rw [escChar_id c h.1, escList_id cs h.2]
    rfl

/-- A benign string is passed through unchanged by the JSON escaper. -/
theorem escape_id (s : String) (h : benignStr s = true) : escape s = s := by
  unfold escape
  rw [escList_id s.data (by simpa [benignStr] using h)]

/-- The opening brace character. -/
def lbrace : Char := Char.ofNat 123

/-- The closing brace character. -/
def rbrace : Char := Char.ofNat 125

/-- Skip JSON whitespace. -/
def skipWs : List Char → List Char
  | [] => []
  | c :: cs => if c = ' ' || c = '\n' || c = '\t' || c = '\r' then skipWs cs else c :: cs

/-- Hex digit test for string escapes. -/
def chkHex (c : Char) : Bool :=
  c.isDigit || (97 ≤ c.toNat && c.toNat ≤ 102) || (65 ≤ c.toNat && c.toNat ≤ 70)

/-- Check a JSON string body after its opening quote; returns the remaining
input after the closing quote, `none` on malformed input. -/
def chkStr : Nat → List Char → Option (List Char)
  | 0, _ => none
  | _ + 1, [] => none
  | fuel + 1, c :: cs =>
    if c = '"' then some cs
    else if c = '\\' then
      match cs with
      | 'u' :: h1 :: h2 :: h3 :: h4 :: cs3 =>
        if chkHex h1 && chkHex h2 && chkHex h3 && chkHex h4 then chkStr fuel cs3 else none
      | e :: cs2 =>
        if e = '"' || e = '\\' || e = '/' || e = 'b' || e = 'f' || e = 'n' || e = 'r' || e = 't'
        then chkStr fuel cs2 else none
      | [] => none
    else if 32 ≤ c.toNat then chkStr fuel cs else none

/-- Consume decimal digits. -/
def takeDigits : List Char → List Char
  | [] => []
  | c :: cs => if c.isDigit then takeDigits cs else c :: cs

/-- Check a JSON number starting at head character `c` (already inspected). -/
def chkNumFrom (c : Char) (rest : List Char) : Option (List Char) :=
  if c = '-' then
    match rest with
    | d :: r2 => if d.isDigit then some (takeDigits r2) else none
    | [] => none
  else some (takeDigits rest)

mutual
/-- Check one JSON value; fuel-bounded recursive descent. -/
def chkVal : Nat → List Char → Option (List Char)
  | 0, _ => none
  | fuel + 1, cs =>
    match skipWs cs with
    | [] => none
    | c :: rest =>
      if c = '"' then chkStr fuel rest
      else if c = lbrace then
        match skipWs rest with
        | [] => none
        | c2 :: r2 => if c2 = rbrace then some r2 else chkMembers fuel (c2 :: r2)
      else if c = 't' then
        match rest with
        | 'r' :: 'u' :: 'e' :: r2 => some r2
        | _ => none
      else if c = 'f' then
        match rest with
        | 'a' :: 'l' :: 's' :: 'e' :: r2 => some r2
        | _ => none
      else if c = 'n' then
        match rest with
        | 'u' :: 'l' :: 'l' :: r2 => some r2
        | _ => none
      else if c = '-' || c.isDigit then chkNumFrom c rest
      else none

/-- Check the members of a JSON object after its opening brace (at least one
member); fuel-bounded. -/
def chkMembers : Nat → List Char → Option (List Char)
  | 0, _ => none
  | fuel + 1, cs =>
    match skipWs cs with
    | [] => none
    | c :: rest =>
      if c = '"' then
        match chkStr fuel rest with
        | none => none
        | some r2 =>
          match skipWs r2 with
          | ':' :: r3 =>
            match chkVal fuel r3 with
            | none => none
            | some r4 =>
              match skipWs r4 with
              | [] => none
              | c2 :: r5 =>
                if c2 = ',' then chkMembers fuel r5
                else if c2 = rbrace then some r5
                else none
          | _ => none
      else none
end

/-- A string is a well-formed JSON document: one value, then only
whitespace. -/
def isValidJson (s : String) : Bool :=
  match chkVal (s.length + 1) s.data with
  | some rest => skipWs rest = ([] : List Char)
  | none => false

/-- The first error `Create` can return, one constructor per
`resp.Diagnostics.AddError` site of the Go `Create` method. -/
inductive CErr where
  | createTransport
  | createApi (status : Nat)
  | createDecode
  | invalidResponse
  | addSecretTransport (key : String)
  | addSecretApi (key : String) (status : Nat)
  | addVariableTransport (key : String)
  | addVariableApi (key : String) (status : Nat)
deriving DecidableEq, Repr

/-- Outcome of the create POST: transport failure, or a status together with
the decoded body when the status is 200 (`none` models a decode failure,
`some fields` the decoded JSON object). -/
inductive CreateOutcome where
  | transport
  | reply (status : Nat) (decoded : Option (List (String × Json)))

/-- The remote environment for one `Create` call. -/
structure CreateEnv where
  createRepo : CreateOutcome
  addSecret : String → CallOutcome
  addVariable : String → CallOutcome

/-- Result of a `Create` pass: remote calls in order, first error (if any),
and the working copy of the plan data at return. -/
structure CreateRes where
  calls : List ApiCall
  error : Option CErr
  state : SpaceResourceModel

/-- Go map lookup `responseData["name"]` on the decoded object. -/
def lookupJ : List (String × Json) → String → Option Json
  | [], _ => none
  | (k, v) :: rest, key => if k = key then some v else lookupJ rest key

/-- The `responseData["name"].(string)` type assertion: `some s` when the
field is present with string type in the decoded body, `none` otherwise. -/
def nameField (body : List (String × Json)) : Option String :=
  match lookupJ body "name" with
  | some (.str s) => some s
  | _ => none

/-- The secrets-then-variables add loops shared by the tail of `Create`
(lines 210-248): unconditionally add every pair of each managed map,
aborting on the first failure. -/
def createAddPhase (env : CreateEnv) (d : SpaceResourceModel) : List ApiCall × Option CErr :=
  let s := if !d.secrets.isNull && !d.secrets.isUnknown then
      runAdds env.addSecret ApiCall.addSecret CErr.addSecretTransport CErr.addSecretApi
        d.id.valueString d.secrets.elements
    else ([], none)
  match s.2 with
  | some e => (s.1, some e)
  | none =>
    let v := if !d.vars.isNull && !d.vars.isUnknown then
        runAdds env.addVariable ApiCall.addVariable CErr.addVariableTransport CErr.addVariableApi
          d.id.valueString d.vars.elements
      else ([], none)
    (s.1 ++ v.1, v.2)

/-- Embedding of `SpaceResource.Create` (lines 160-251): POST the creation
payload; on a 200 decode the body and extract the `name` field as the new
identifier (shape error if absent or non-string); then add the managed
secrets and variables. The working data (with the identifier assigned as
soon as extraction succeeds) is returned alongside calls and error. -/
def createSpace (env : CreateEnv) (data : SpaceResourceModel) : CreateRes :=
  match env.createRepo with
  | .transport => ⟨[.createRepo], some .createTransport, data⟩
  | .reply n decoded =>
    if n = 200 then
      match decoded with
      | none => ⟨[.createRepo], some .createDecode, data⟩
      | some body =>
        match nameField body with
        | none => ⟨[.createRepo], some .invalidResponse, data⟩
        | some nm =>
          let d := { data with id := TFString.value nm }
          let phase := createAddPhase env d
          ⟨.createRepo :: phase.1, phase.2, d⟩
    else ⟨[.createRepo], some (.createApi n), data⟩

/-- A step after an error is a no-op. -/
theorem step_err {c : SpaceResourceModel → UpdRes} {r : UpdRes} {e : UErr}
    (h : r.error = some e) : step c r = r := by
  unfold step
  rw [h]

/-- A step after success appends the core's calls and adopts its error and
state. -/
theorem step_ok {c : SpaceResourceModel → UpdRes} {r : UpdRes}
    (h : r.error = none) : step c r = ⟨r.calls ++ (c r.state).calls, (c r.state).error, (c r.state).state⟩ := by
  unfold step
  rw [h]

/-- If a step result has no error, the input had no error. -/
theorem step_error_none {c : SpaceResourceModel → UpdRes} {r : UpdRes}
    (h : (step c r).error = none) : r.error = none := by
  cases hr : r.error with
  | none => rfl
  | some e => rw [step_err hr] at h; simp [hr] at h

/-- An error in a step result comes from the input or from the core run on
the input's state. -/
theorem step_error_some {c : SpaceResourceModel → UpdRes} {r : UpdRes} {e : UErr}
    (h : (step c r).error = some e) :
    r.error = some e ∨ (r.error = none ∧ (c r.state).error = some e) := by
  cases hr : r.error with
  | none => right; rw [step_ok hr] at h; exact ⟨rfl, h⟩
  | some e2 => left; rw [step_err hr] at h; rw [← h, hr]

/-- Every call issued by the delete loop is a delete of one of the input
keys against the given identifier. -/
theorem runDeletes_calls {E : Type} (out : String → CallOutcome) (mk : String → String → ApiCall)
    (mkTE : String → E) (mkAE : String → Nat → E) (id : String) (keys : List String) :
    ∀ x ∈ (runDeletes out mk mkTE mkAE id keys).1, ∃ k ∈ keys, x = mk id k := by
  induction keys with
  | nil => intro x hx; simp [runDeletes] at hx
  | cons k ks ih =>
    intro x hx
    unfold runDeletes at hx
    rcases hok : out k with _ | n
    · rw [hok] at hx
      simp at hx
      exact ⟨k, by simp, hx⟩
    · rw [hok] at hx
      by_cases hn : n = 200
      · subst hn
        simp at hx
        rcases hx with hx | hx
        · exact ⟨k, by simp, hx⟩
        · obtain ⟨k2, hk2, hx2⟩ := ih x hx
          exact ⟨k2, by simp [hk2], hx2⟩
      · simp [hn] at hx
        exact ⟨k, by simp, hx⟩

/-- When the delete loop succeeds its trace is exactly one delete call per
input key, in order. -/
theorem runDeletes_ok {E : Type} (out : String → CallOutcome) (mk : String → String → ApiCall)
    (mkTE : String → E) (mkAE : String → Nat → E) (id : String) (keys : List String)
    (h : (runDeletes out mk mkTE mkAE id keys).2 = none) :
    (runDeletes out mk mkTE mkAE id keys).1 = keys.map fun k => mk id k := by
  induction keys with
  | nil => rfl
  | cons k ks ih =>
    unfold runDeletes at h
    unfold runDeletes
    rcases hok : out k with _ | n
    · rw [hok] at h; simp at h
    · rw [hok] at h
      by_cases hn : n = 200
      · subst hn
        simp at h ⊢
        exact ih h
      · simp [hn] at h

/-- Every call issued by the add loop is an add of one of the input pairs
against the given identifier. -/
theorem runAdds_calls {E : Type} (out : String → CallOutcome) (mk : String → String → String → ApiCall)
    (mkTE : String → E) (mkAE : String → Nat → E) (id : String) (l : List (String × String)) :
    ∀ x ∈ (runAdds out mk mkTE mkAE id l).1, ∃ p ∈ l, x = mk id p.1 p.2 := by
  induction l with
  | nil => intro x hx; simp [runAdds] at hx
  | cons p rest ih =>
    intro x hx
    obtain ⟨k, v⟩ := p
    unfold runAdds at hx
    rcases hok : out k with _ | n
    · rw [hok] at hx
      simp at hx
      exact ⟨(k, v), by simp, hx⟩
    · rw [hok] at hx
      by_cases hn : n = 200
      · subst hn
        simp at hx
        rcases hx with hx | hx
        · exact ⟨(k, v), by simp, hx⟩
        · obtain ⟨p2, hp2, hx2⟩ := ih x hx
          exact ⟨p2, by simp [hp2], hx2⟩
      · simp [hn] at hx
        exact ⟨(k, v), by simp, hx⟩

/-- When the add loop succeeds its trace is exactly one add call per input
pair, in order. -/
theorem runAdds_ok {E : Type} (out : String → CallOutcome) (mk : String → String → String → ApiCall)
    (mkTE : String → E) (mkAE : String → Nat → E) (id : String) (l : List (String × String))
    (h : (runAdds out mk mkTE mkAE id l).2 = none) :
    (runAdds out mk mkTE mkAE id l).1 = l.map fun p => mk id p.1 p.2 := by
  induction l with
  | nil => rfl
  | cons p rest ih =>
    obtain ⟨k, v⟩ := p
    unfold runAdds at h ⊢
    rcases hok : out k with _ | n
    · rw [hok] at h; simp at h
    · rw [hok] at h
      by_cases hn : n = 200
      · subst hn
        simp at h ⊢
        exact ih h
      · simp [hn] at h

/-- The error of the delete loop, when present, was built by one of the two
error constructors it was given. -/
theorem runDeletes_error {E : Type} (out : String → CallOutcome) (mk : String → String → ApiCall)
    (mkTE : String → E) (mkAE : String → Nat → E) (id : String) (keys : List String)
    (e : E) (h : (runDeletes out mk mkTE mkAE id keys).2 = some e) :
    (∃ k, e = mkTE k) ∨ ∃ k n, e = mkAE k n := by
  induction keys with
  | nil => simp [runDeletes] at h
  | cons k ks ih =>
    unfold runDeletes at h
    rcases hok : out k with _ | n
    · rw [hok] at h
      simp at h
      exact Or.inl ⟨k, h.symm⟩
    · rw [hok] at h
      by_cases hn : n = 200
      · subst hn
        simp at h
        exact ih h
      · simp [hn] at h
        exact Or.inr ⟨k, n, h.symm⟩

/-- The error of the add loop, when present, was built by one of the two
error constructors it was given. -/
theorem runAdds_error {E : Type} (out : String → CallOutcome) (mk : String → String → String → ApiCall)
    (mkTE : String → E) (mkAE : String → Nat → E) (id : String) (l : List (String × String))
    (e : E) (h : (runAdds out mk mkTE mkAE id l).2 = some e) :
    (∃ k, e = mkTE k) ∨ ∃ k n, e = mkAE k n := by
  induction l with
  | nil => simp [runAdds] at h
  | cons p rest ih =>
    obtain ⟨k, v⟩ := p
    unfold runAdds at h
    rcases hok : out k with _ | n
    · rw [hok] at h
      simp at h
      exact Or.inl ⟨k, h.symm⟩
    · rw [hok] at h
      by_cases hn : n = 200
      · subst hn
        simp at h
        exact ih h
      · simp [hn] at h
        exact Or.inr ⟨k, n, h.symm⟩

/-- Equal name value strings: the rename step is a no-op. -/
theorem renameCore_noop (env : UpdateEnv) (data st : SpaceResourceModel)
    (h : st.name.valueString = data.name.valueString) :
    renameCore env data st = ⟨[], none, st⟩ := by
  unfold renameCore
  rw [if_neg (fun hc => hc h)]

/-- Equal visibility values: the visibility step is a no-op. -/
theorem visibilityCore_noop (env : UpdateEnv) (data st : SpaceResourceModel)
    (h : st.priv = data.priv) :
    visibilityCore env data st = ⟨[], none, st⟩ := by
  unfold visibilityCore
  rw [if_neg (fun hc => hc h)]

/-- Unset desired secrets: the secrets step is a no-op. -/
theorem secretsCore_noop (env : UpdateEnv) (data st : SpaceResourceModel)
    (h : data.secrets.unset = true) :
    secretsCore env data st = ⟨[], none, st⟩ := by
  unfold secretsCore
  rw [if_neg]
  simp only [TFMap.unset, Bool.or_eq_true] at h
  rcases h with h | h <;> simp [h]

/-- Unset desired variables: the variables step is a no-op. -/
theorem variablesCore_noop (env : UpdateEnv) (data st : SpaceResourceModel)
    (h : data.vars.unset = true) :
    variablesCore env data st = ⟨[], none, st⟩ := by
  unfold variablesCore
  rw [if_neg]
  simp only [TFMap.unset, Bool.or_eq_true] at h
  rcases h with h | h <;> simp [h]

/-- Equal hardware value strings: the hardware step is a no-op. -/
theorem hardwareCore_noop (env : UpdateEnv) (data st : SpaceResourceModel)
    (h : st.hardware.valueString = data.hardware.valueString) :
    hardwareCore env data st = ⟨[], none, st⟩ := by
  unfold hardwareCore
  rw [if_neg (fun hc => hc h)]

/-- Equal storage value strings: the storage step is a no-op. -/
theorem storageCore_noop (env : UpdateEnv) (data st : SpaceResourceModel)
    (h : st.storage.valueString = data.storage.valueString) :
    storageCore env data st = ⟨[], none, st⟩ := by
  unfold storageCore
  rw [if_neg (fun hc => hc h)]

/-- Equal sleep-time values: the sleep-time step is a no-op. -/
theorem sleepTimeCore_noop (env : UpdateEnv) (data st : SpaceResourceModel)
    (h : st.sleepTime.valueInt64 = data.sleepTime.valueInt64) :
    sleepTimeCore env data st = ⟨[], none, st⟩ := by
  unfold sleepTimeCore
  rw [if_neg (fun hc => hc h)]

/-- Errors of the rename step are rename errors. -/
theorem renameCore_error (env : UpdateEnv) (data st : SpaceResourceModel) (e : UErr)
    (h : (renameCore env data st).error = some e) : e.stepOf = 1 := by
  unfold renameCore at h
  repeat' split at h
  all_goals simp at h
  all_goals subst h
  all_goals rfl

/-- Errors of the visibility step are visibility errors. -/
theorem visibilityCore_error (env : UpdateEnv) (data st : SpaceResourceModel) (e : UErr)
    (h : (visibilityCore env data st).error = some e) : e.stepOf = 2 := by
  unfold visibilityCore at h
  repeat' split at h
  all_goals simp at h
  all_goals subst h
  all_goals rfl

/-- Errors of the hardware step are hardware errors. -/
theorem hardwareCore_error (env : UpdateEnv) (data st : SpaceResourceModel) (e : UErr)
    (h : (hardwareCore env data st).error = some e) : e.stepOf = 5 := by
  unfold hardwareCore at h
  repeat' split at h
  all_goals simp at h
  all_goals subst h
  all_goals rfl

/-- Errors of the storage step are storage errors. -/
theorem storageCore_error (env : UpdateEnv) (data st : SpaceResourceModel) (e : UErr)
    (h : (storageCore env data st).error = some e) : e.stepOf = 6 := by
  unfold storageCore at h
  repeat' split at h
  all_goals simp at h
  all_goals subst h
  all_goals rfl

/-- Errors of the sleep-time step are sleep-time errors. -/
theorem sleepTimeCore_error (env : UpdateEnv) (data st : SpaceResourceModel) (e : UErr)
    (h : (sleepTimeCore env data st).error = some e) : e.stepOf = 7 := by
  unfold sleepTimeCore at h
  repeat' split at h
  all_goals simp at h
  all_goals subst h
  all_goals rfl

/-- Errors of the secrets step are secrets errors. -/
theorem secretsCore_error (env : UpdateEnv) (data st : SpaceResourceModel) (e : UErr)
    (h : (secretsCore env data st).error = some e) : e.stepOf = 3 := by
  unfold secretsCore at h
  by_cases hm : (!data.secrets.isNull && !data.secrets.isUnknown) = true
  case neg => rw [if_neg hm] at h; simp at h
  rw [if_pos hm] at h
  rcases hf : env.fetchSecrets with _ | ⟨n, decoded⟩
  · rw [hf] at h
    simp at h
    subst h; rfl
  · rw [hf] at h
    simp only at h
    by_cases hn : n = 200
    · rw [if_pos hn] at h
      rcases decoded with _ | keys
      · simp at h
        subst h; rfl
      · simp only at h
        rcases hd : (runDeletes env.deleteSecret ApiCall.deleteSecret UErr.deleteSecretTransport
            UErr.deleteSecretApi data.id.valueString keys).2 with _ | e1
        · rw [hd] at h
          simp only at h
          rcases ha : (runAdds env.addSecret ApiCall.addSecret UErr.addSecretTransport
              UErr.addSecretApi data.id.valueString data.secrets.elements).2 with _ | e2
          · rw [ha] at h; simp at h
          · rw [ha] at h
            simp at h
            subst h
            rcases runAdds_error _ _ _ _ _ _ _ ha with ⟨k, rfl⟩ | ⟨k, n2, rfl⟩ <;> rfl
        · rw [hd] at h
          simp at h
          subst h
          rcases runDeletes_error _ _ _ _ _ _ _ hd with ⟨k, rfl⟩ | ⟨k, n2, rfl⟩ <;> rfl
    · rw [if_neg hn] at h
      rcases ha : (runAdds env.addSecret ApiCall.addSecret UErr.addSecretTransport
          UErr.addSecretApi data.id.valueString data.secrets.elements).2 with _ | e2
      · rw [ha] at h; simp at h
      · rw [ha] at h
        simp at h
        subst h
        rcases runAdds_error _ _ _ _ _ _ _ ha with ⟨k, rfl⟩ | ⟨k, n2, rfl⟩ <;> rfl

/-- Errors of the variables step are variables errors. -/
theorem variablesCore_error (env : UpdateEnv) (data st : SpaceResourceModel) (e : UErr)
    (h : (variablesCore env data st).error = some e) : e.stepOf = 4 := by
  unfold variablesCore at h
  by_cases hm : (!data.vars.isNull && !data.vars.isUnknown) = true
  case neg => rw [if_neg hm] at h; simp at h
  rw [if_pos hm] at h
  rcases hf : env.fetchVariables with _ | ⟨n, decoded⟩
  · rw [hf] at h
    simp at h
    subst h; rfl
  · rw [hf] at h
    simp only at h
    by_cases hn : n = 200
    · rw [if_pos hn] at h
      rcases decoded with _ | keys
      · simp at h
        subst h; rfl
      · simp only at h
        rcases hd : (runDeletes env.deleteVariable ApiCall.deleteVariable UErr.deleteVariableTransport
            UErr.deleteVariableApi data.id.valueString keys).2 with _ | e1
        · rw [hd] at h
          simp only at h
          rcases ha : (runAdds env.addVariable ApiCall.addVariable UErr.addVariableTransport
              UErr.addVariableApi data.id.valueString data.vars.elements).2 with _ | e2
          · rw [ha] at h; simp at h
          · rw [ha] at h
            simp at h
            subst h
            rcases runAdds_error _ _ _ _ _ _ _ ha with ⟨k, rfl⟩ | ⟨k, n2, rfl⟩ <;> rfl
        · rw [hd] at h
          simp at h
          subst h
          rcases runDeletes_error _ _ _ _ _ _ _ hd with ⟨k, rfl⟩ | ⟨k, n2, rfl⟩ <;> rfl
    · rw [if_neg hn] at h
      rcases ha : (runAdds env.addVariable ApiCall.addVariable UErr.addVariableTransport
          UErr.addVariableApi data.id.valueString data.vars.elements).2 with _ | e2
      · rw [ha] at h; simp at h
      · rw [ha] at h
        simp at h
        subst h
        rcases runAdds_error _ _ _ _ _ _ _ ha with ⟨k, rfl⟩ | ⟨k, n2, rfl⟩ <;> rfl

/-- Calls of the rename step are rename calls. -/
theorem renameCore_calls (env : UpdateEnv) (data st : SpaceResourceModel) (x : ApiCall)
    (hx : x ∈ (renameCore env data st).calls) : x.stepOf = 1 := by
  unfold renameCore at hx
  repeat' split at hx
  all_goals simp at hx
  all_goals subst hx
  all_goals rfl

/-- Calls of the visibility step are visibility calls. -/
theorem visibilityCore_calls (env : UpdateEnv) (data st : SpaceResourceModel) (x : ApiCall)
    (hx : x ∈ (visibilityCore env data st).calls) : x.stepOf = 2 := by
  unfold visibilityCore at hx
  repeat' split at hx
  all_goals simp at hx
  all_goals subst hx
  all_goals rfl

/-- Calls of the hardware step are hardware calls. -/
theorem hardwareCore_calls (env : UpdateEnv) (data st : SpaceResourceModel) (x : ApiCall)
    (hx : x ∈ (hardwareCore env data st).calls) : x.stepOf = 5 := by
  unfold hardwareCore at hx
  repeat' split at hx
  all_goals simp at hx
  all_goals subst hx
  all_goals rfl

/-- Calls of the storage step are storage calls. -/
theorem storageCore_calls (env : UpdateEnv) (data st : SpaceResourceModel) (x : ApiCall)
    (hx : x ∈ (storageCore env data st).calls) : x.stepOf = 6 := by
  unfold storageCore at hx
  repeat' split at hx
  all_goals simp at hx
  all_goals subst hx
  all_goals rfl

/-- Calls of the sleep-time step are sleep-time calls. -/
theorem sleepTimeCore_calls (env : UpdateEnv) (data st : SpaceResourceModel) (x : ApiCall)
    (hx : x ∈ (sleepTimeCore env data st).calls) : x.stepOf = 7 := by
  unfold sleepTimeCore at hx
  repeat' split at hx
  all_goals simp at hx
  all_goals subst hx
  all_goals rfl

/-- Calls of the secrets step are secrets calls. -/
theorem secretsCore_calls (env : UpdateEnv) (data st : SpaceResourceModel) (x : ApiCall)
    (hx : x ∈ (secretsCore env data st).calls) : x.stepOf = 3 := by
  unfold secretsCore at hx
  by_cases hm : (!data.secrets.isNull && !data.secrets.isUnknown) = true
  case neg => rw [if_neg hm] at hx; simp at hx
  rw [if_pos hm] at hx
  rcases hf : env.fetchSecrets with _ | ⟨n, decoded⟩
  · rw [hf] at hx
    simp at hx
    subst hx; rfl
  · rw [hf] at hx
    simp only at hx
    by_cases hn : n = 200
    · rw [if_pos hn] at hx
      rcases decoded with _ | keys
      · simp at hx
        subst hx; rfl
      · simp only at hx
        rcases hd : (runDeletes env.deleteSecret ApiCall.deleteSecret UErr.deleteSecretTransport
            UErr.deleteSecretApi data.id.valueString keys).2 with _ | e1
        · rw [hd] at hx
          simp only at hx
          rcases ha : (runAdds env.addSecret ApiCall.addSecret UErr.addSecretTransport
              UErr.addSecretApi data.id.valueString data.secrets.elements).2 with _ | e2
          all_goals rw [ha] at hx
          all_goals simp at hx
          all_goals rcases hx with rfl | hx | hx
          all_goals try rfl
          all_goals first
            | (obtain ⟨k, hk, rfl⟩ := runDeletes_calls _ _ _ _ _ _ _ hx; rfl)
            | (obtain ⟨p, hp, rfl⟩ := runAdds_calls _ _ _ _ _ _ _ hx; rfl)
        · rw [hd] at hx
          simp at hx
          rcases hx with rfl | hx
          · rfl
          · obtain ⟨k, hk, rfl⟩ := runDeletes_calls _ _ _ _ _ _ _ hx; rfl
    · rw [if_neg hn] at hx
      rcases ha : (runAdds env.addSecret ApiCall.addSecret UErr.addSecretTransport
          UErr.addSecretApi data.id.valueString data.secrets.elements).2 with _ | e2
      all_goals rw [ha] at hx
      all_goals simp at hx
      all_goals rcases hx with rfl | hx
      all_goals try rfl
      all_goals obtain ⟨p, hp, rfl⟩ := runAdds_calls _ _ _ _ _ _ _ hx
      all_goals rfl

/-- Calls of the variables step are variables calls. -/
theorem variablesCore_calls (env : UpdateEnv) (data st : SpaceResourceModel) (x : ApiCall)
    (hx : x ∈ (variablesCore env data st).calls) : x.stepOf = 4 := by
  unfold variablesCore at hx
  by_cases hm : (!data.vars.isNull && !data.vars.isUnknown) = true
  case neg => rw [if_neg hm] at hx; simp at hx
  rw [if_pos hm] at hx
  rcases hf : env.fetchVariables with _ | ⟨n, decoded⟩
  · rw [hf] at hx
    simp at hx
    subst hx; rfl
  · rw [hf] at hx
    simp only at hx
    by_cases hn : n = 200
    · rw [if_pos hn] at hx
      rcases decoded with _ | keys
      · simp at hx
        subst hx; rfl
      · simp only at hx
        rcases hd : (runDeletes env.deleteVariable ApiCall.deleteVariable UErr.deleteVariableTransport
            UErr.deleteVariableApi data.id.valueString keys).2 with _ | e1
        · rw [hd] at hx
          simp only at hx
          rcases ha : (runAdds env.addVariable ApiCall.addVariable UErr.addVariableTransport
              UErr.addVariableApi data.id.valueString data.vars.elements).2 with _ | e2
          all_goals rw [ha] at hx
          all_goals simp at hx
          all_goals rcases hx with rfl | hx | hx
          all_goals try rfl
          all_goals first
            | (obtain ⟨k, hk, rfl⟩ := runDeletes_calls _ _ _ _ _ _ _ hx; rfl)
            | (obtain ⟨p, hp, rfl⟩ := runAdds_calls _ _ _ _ _ _ _ hx; rfl)
        · rw [hd] at hx
          simp at hx
          rcases hx with rfl | hx
          · rfl
          · obtain ⟨k, hk, rfl⟩ := runDeletes_calls _ _ _ _ _ _ _ hx; rfl
    · rw [if_neg hn] at hx
      rcases ha : (runAdds env.addVariable ApiCall.addVariable UErr.addVariableTransport
          UErr.addVariableApi data.id.valueString data.vars.elements).2 with _ | e2
      all_goals rw [ha] at hx
      all_goals simp at hx
      all_goals rcases hx with rfl | hx
      all_goals try rfl
      all_goals obtain ⟨p, hp, rfl⟩ := runAdds_calls _ _ _ _ _ _ _ hx
      all_goals rfl

/-- The rename step either leaves the state alone or writes exactly the
renamed identifier and the desired name. -/
theorem renameCore_state (env : UpdateEnv) (data st : SpaceResourceModel) :
    (renameCore env data st).state = st ∨
      (renameCore env data st).state =
        { st with id := TFString.value (ownerOf st.id.valueString ++ "/" ++ data.name.valueString),
                  name := data.name } := by
  unfold renameCore
  repeat' split
  all_goals first
    | (left; rfl)
    | (right; rfl)

/-- The visibility step never changes the working state. -/
theorem visibilityCore_state (env : UpdateEnv) (data st : SpaceResourceModel) :
    (visibilityCore env data st).state = st := by
  unfold visibilityCore
  repeat' split
  all_goals rfl

/-- The hardware step either leaves the state alone or succeeds and writes
exactly the desired hardware. -/
theorem hardwareCore_state (env : UpdateEnv) (data st : SpaceResourceModel) :
    (hardwareCore env data st).state = st ∨
      ((hardwareCore env data st).error = none ∧
        (hardwareCore env data st).state = { st with hardware := data.hardware }) := by
  unfold hardwareCore
  repeat' split
  all_goals first
    | (left; rfl)
    | (right; exact ⟨rfl, rfl⟩)

/-- The storage step either leaves the state alone or succeeds and writes
exactly the desired storage. -/
theorem storageCore_state (env : UpdateEnv) (data st : SpaceResourceModel) :
    (storageCore env data st).state = st ∨
      ((storageCore env data st).error = none ∧
        (storageCore env data st).state = { st with storage := data.storage }) := by
  unfold storageCore
  repeat' split
  all_goals first
    | (left; rfl)
    | (right; exact ⟨rfl, rfl⟩)

/-- The sleep-time step either leaves the state alone or succeeds and writes
exactly the desired sleep time. -/
theorem sleepTimeCore_state (env : UpdateEnv) (data st : SpaceResourceModel) :
    (sleepTimeCore env data st).state = st ∨
      ((sleepTimeCore env data st).error = none ∧
        (sleepTimeCore env data st).state = { st with sleepTime := data.sleepTime }) := by
  unfold sleepTimeCore
  repeat' split
  all_goals first
    | (left; rfl)
    | (right; exact ⟨rfl, rfl⟩)

/-- The secrets step either leaves the state alone or writes exactly the
desired elements into the secrets field. -/
theorem secretsCore_state (env : UpdateEnv) (data st : SpaceResourceModel) :
    (secretsCore env data st).state = st ∨
      (secretsCore env data st).state = { st with secrets := TFMap.value data.secrets.elements } := by
  unfold secretsCore
  by_cases hm : (!data.secrets.isNull && !data.secrets.isUnknown) = true
  case neg => rw [if_neg hm]; left; rfl
  rw [if_pos hm]
  rcases hf : env.fetchSecrets with _ | ⟨n, decoded⟩
  · left; rfl
  · simp only
    by_cases hn : n = 200
    · rw [if_pos hn]
      rcases decoded with _ | keys
      · left; rfl
      · simp only
        rcases hd : (runDeletes env.deleteSecret ApiCall.deleteSecret UErr.deleteSecretTransport
            UErr.deleteSecretApi data.id.valueString keys).2 with _ | e1
        · simp only
          rcases ha : (runAdds env.addSecret ApiCall.addSecret UErr.addSecretTransport
              UErr.addSecretApi data.id.valueString data.secrets.elements).2 with _ | e2
          · right; rfl
          · left; rfl
        · left; rfl
    · rw [if_neg hn]
      rcases ha : (runAdds env.addSecret ApiCall.addSecret UErr.addSecretTransport
          UErr.addSecretApi data.id.valueString data.secrets.elements).2 with _ | e2
      · right; rfl
      · left; rfl

/-- The variables step either leaves the state alone or writes exactly the
desired elements into the variables field. -/
theorem variablesCore_state (env : UpdateEnv) (data st : SpaceResourceModel) :
    (variablesCore env data st).state = st ∨
      (variablesCore env data st).state = { st with vars := TFMap.value data.vars.elements } := by
  unfold variablesCore
  by_cases hm : (!data.vars.isNull && !data.vars.isUnknown) = true
  case neg => rw [if_neg hm]; left; rfl
  rw [if_pos hm]
  rcases hf : env.fetchVariables with _ | ⟨n, decoded⟩
  · left; rfl
  · simp only
    by_cases hn : n = 200
    · rw [if_pos hn]
      rcases decoded with _ | keys
      · left; rfl
      · simp only
        rcases hd : (runDeletes env.deleteVariable ApiCall.deleteVariable UErr.deleteVariableTransport
            UErr.deleteVariableApi data.id.valueString keys).2 with _ | e1
        · simp only
          rcases ha : (runAdds env.addVariable ApiCall.addVariable UErr.addVariableTransport
              UErr.addVariableApi data.id.valueString data.vars.elements).2 with _ | e2
          · right; rfl
          · left; rfl
        · left; rfl
    · rw [if_neg hn]
      rcases ha : (runAdds env.addVariable ApiCall.addVariable UErr.addVariableTransport
          UErr.addVariableApi data.id.valueString data.vars.elements).2 with _ | e2
      · right; rfl
      · left; rfl

/-- On name drift, a successful rename step issues exactly the move call
and writes the post-rename identifier and desired name into the state. -/
theorem renameCore_success (env : UpdateEnv) (data st : SpaceResourceModel)
    (hd : st.name.valueString ≠ data.name.valueString)
    (herr : (renameCore env data st).error = none) :
    renameCore env data st =
      ⟨[ApiCall.renameSpace st.id.valueString (ownerOf st.id.valueString ++ "/" ++ data.name.valueString)],
        none,
        { st with id := TFString.value (ownerOf st.id.valueString ++ "/" ++ data.name.valueString),
                  name := data.name }⟩ := by
  unfold renameCore at herr ⊢
  rw [if_pos hd] at herr ⊢
  rcases hb : env.renameSpace with _ | _ | n
  · rw [hb] at herr; simp at herr
  · rw [hb] at herr; simp at herr
  · rw [hb] at herr
    simp only at herr
    by_cases hn : n = 200
    · subst hn
      rfl
    · rw [if_neg hn] at herr
      simp at herr

/-- A successful secrets step over a managed map `m`, with the listing
returning status 200 and keys `keys`, issues exactly the fetch, one delete
per listed key, then one add per desired pair, and writes exactly `m`. -/
theorem secretsCore_success (env : UpdateEnv) (data st : SpaceResourceModel)
    (m : List (String × String)) (keys : List String)
    (hm : data.secrets = TFMap.value m)
    (hf : env.fetchSecrets = FetchOutcome.reply 200 (some keys))
    (herr : (secretsCore env data st).error = none) :
    secretsCore env data st =
      ⟨ApiCall.fetchSecrets data.id.valueString ::
          (keys.map (fun k => ApiCall.deleteSecret data.id.valueString k) ++
            m.map fun p => ApiCall.addSecret data.id.valueString p.1 p.2),
        none,
        { st with secrets := TFMap.value m }⟩ := by
  unfold secretsCore at herr ⊢
  rw [hm, hf] at herr ⊢
  simp only [TFMap.isNull, TFMap.isUnknown, TFMap.elements, Bool.not_false, Bool.and_self,
    if_true] at herr ⊢
  rcases hd : (runDeletes env.deleteSecret ApiCall.deleteSecret UErr.deleteSecretTransport
      UErr.deleteSecretApi data.id.valueString keys).2 with _ | e1
  · rw [hd] at herr
    simp only at herr ⊢
    rcases ha : (runAdds env.addSecret ApiCall.addSecret UErr.addSecretTransport
        UErr.addSecretApi data.id.valueString m).2 with _ | e2
    · rw [ha] at herr
      simp only
      rw [runDeletes_ok _ _ _ _ _ _ hd, runAdds_ok _ _ _ _ _ _ ha]
    · rw [ha] at herr; simp at herr
  · rw [hd] at herr; simp at herr

/-- A transport error on the secrets listing aborts the secrets step
immediately, with only the fetch call issued. -/
theorem secretsCore_fetchTransport (env : UpdateEnv) (data st : SpaceResourceModel)
    (m : List (String × String)) (hm : data.secrets = TFMap.value m)
    (hf : env.fetchSecrets = FetchOutcome.transport) :
    secretsCore env data st =
      ⟨[ApiCall.fetchSecrets data.id.valueString], some UErr.secretsFetchTransport, st⟩ := by
  unfold secretsCore
  rw [hm, hf]
  simp [TFMap.isNull, TFMap.isUnknown]

/-- A non-200 status on the secrets listing skips the deletion phase: the
step issues the fetch and then goes straight to the add loop. -/
theorem secretsCore_non200 (env : UpdateEnv) (data st : SpaceResourceModel)
    (m : List (String × String)) (n : Nat) (decoded : Option (List String))
    (hm : data.secrets = TFMap.value m)
    (hf : env.fetchSecrets = FetchOutcome.reply n decoded) (hn : n ≠ 200) :
    (secretsCore env data st).calls =
      ApiCall.fetchSecrets data.id.valueString ::
        (runAdds env.addSecret ApiCall.addSecret UErr.addSecretTransport UErr.addSecretApi
          data.id.valueString m).1 := by
  unfold secretsCore
  rw [hm, hf]
  simp only [TFMap.isNull, TFMap.isUnknown, TFMap.elements, Bool.not_false, Bool.and_self, if_true]
  rw [if_neg hn]
  rcases ha : (runAdds env.addSecret ApiCall.addSecret UErr.addSecretTransport UErr.addSecretApi
      data.id.valueString m).2 with _ | e2 <;> rfl

/-- A delete call in the secrets step implies the listing returned
status 200 with a decoded body. -/
theorem secretsCore_delete_200 (env : UpdateEnv) (data st : SpaceResourceModel) (x : ApiCall)
    (hx : x ∈ (secretsCore env data st).calls) (hdel : x.isDeleteSecret = true) :
    ∃ keys, env.fetchSecrets = FetchOutcome.reply 200 (some keys) := by
  unfold secretsCore at hx
  by_cases hm : (!data.secrets.isNull && !data.secrets.isUnknown) = true
  case neg => rw [if_neg hm] at hx; simp at hx
  rw [if_pos hm] at hx
  rcases hf : env.fetchSecrets with _ | ⟨n, decoded⟩
  · rw [hf] at hx
    simp at hx
    subst hx
    simp [ApiCall.isDeleteSecret] at hdel
  · rw [hf] at hx
    simp only at hx
    by_cases hn : n = 200
    · subst hn
      rcases decoded with _ | keys
      · rw [if_pos rfl] at hx
        simp at hx
        subst hx
        simp [ApiCall.isDeleteSecret] at hdel
      · exact ⟨keys, rfl⟩
    · rw [if_neg hn] at hx
      rcases ha : (runAdds env.addSecret ApiCall.addSecret UErr.addSecretTransport
          UErr.addSecretApi data.id.valueString data.secrets.elements).2 with _ | e2
      all_goals rw [ha] at hx
      all_goals simp at hx
      all_goals rcases hx with rfl | hx
      all_goals try simp [ApiCall.isDeleteSecret] at hdel
      all_goals obtain ⟨p, hp, rfl⟩ := runAdds_calls _ _ _ _ _ _ _ hx
      all_goals simp [ApiCall.isDeleteSecret] at hdel

/-- A transport error on the variables listing aborts the variables step
immediately, with only the fetch call issued. -/
theorem variablesCore_fetchTransport (env : UpdateEnv) (data st : SpaceResourceModel)
    (m : List (String × String)) (hm : data.vars = TFMap.value m)
    (hf : env.fetchVariables = FetchOutcome.transport) :
    variablesCore env data st =
      ⟨[ApiCall.fetchVariables data.id.valueString], some UErr.variablesFetchTransport, st⟩ := by
  unfold variablesCore
  rw [hm, hf]
  simp [TFMap.isNull, TFMap.isUnknown]

/-- A non-200 status on the variables listing skips the deletion phase: the
step issues the fetch and then goes straight to the add loop. -/
theorem variablesCore_non200 (env : UpdateEnv) (data st : SpaceResourceModel)
    (m : List (String × String)) (n : Nat) (decoded : Option (List String))
    (hm : data.vars = TFMap.value m)
    (hf : env.fetchVariables = FetchOutcome.reply n decoded) (hn : n ≠ 200) :
    (variablesCore env data st).calls =
      ApiCall.fetchVariables data.id.valueString ::
        (runAdds env.addVariable ApiCall.addVariable UErr.addVariableTransport UErr.addVariableApi
          data.id.valueString m).1 := by
  unfold variablesCore
  rw [hm, hf]
  simp only [TFMap.isNull, TFMap.isUnknown, TFMap.elements, Bool.not_false, Bool.and_self, if_true]
  rw [if_neg hn]
  rcases ha : (runAdds env.addVariable ApiCall.addVariable UErr.addVariableTransport UErr.addVariableApi
      data.id.valueString m).2 with _ | e2 <;> rfl

/-- A delete call in the variables step implies the listing returned
status 200 with a decoded body. -/
theorem variablesCore_delete_200 (env : UpdateEnv) (data st : SpaceResourceModel) (x : ApiCall)
    (hx : x ∈ (variablesCore env data st).calls) (hdel : x.isDeleteVariable = true) :
    ∃ keys, env.fetchVariables = FetchOutcome.reply 200 (some keys) := by
  unfold variablesCore at hx
  by_cases hm : (!data.vars.isNull && !data.vars.isUnknown) = true
  case neg => rw [if_neg hm] at hx; simp at hx
  rw [if_pos hm] at hx
  rcases hf : env.fetchVariables with _ | ⟨n, decoded⟩
  · rw [hf] at hx
    simp at hx
    subst hx
    simp [ApiCall.isDeleteVariable] at hdel
  · rw [hf] at hx
    simp only at hx
    by_cases hn : n = 200
    · subst hn
      rcases decoded with _ | keys
      · rw [if_pos rfl] at hx
        simp at hx
        subst hx
        simp [ApiCall.isDeleteVariable] at hdel
      · exact ⟨keys, rfl⟩
    · rw [if_neg hn] at hx
      rcases ha : (runAdds env.addVariable ApiCall.addVariable UErr.addVariableTransport
          UErr.addVariableApi data.id.valueString data.vars.elements).2 with _ | e2
      all_goals rw [ha] at hx
      all_goals simp at hx
      all_goals rcases hx with rfl | hx
      all_goals try simp [ApiCall.isDeleteVariable] at hdel
      all_goals obtain ⟨p, hp, rfl⟩ := runAdds_calls _ _ _ _ _ _ _ hx
      all_goals simp [ApiCall.isDeleteVariable] at hdel

/-- A step whose core is a no-op on the current state leaves the
accumulated result unchanged. -/
theorem step_noop {c : SpaceResourceModel → UpdRes} {r : UpdRes}
    (he : r.error = none) (h : c r.state = ⟨[], none, r.state⟩) : step c r = r := by
  rw [step_ok he, h]
  obtain ⟨cs, e, st⟩ := r
  simp only at he
  subst he
  simp

/-- The state after a step is the input state or the core's output state. -/
theorem step_state (c : SpaceResourceModel → UpdRes) (r : UpdRes) :
    (step c r).state = r.state ∨ (step c r).state = (c r.state).state := by
  cases h : r.error with
  | some e => rw [step_err h]; left; rfl
  | none => rw [step_ok h]; right; rfl

/-- A call in a step result comes from the accumulated result or from the
core (run on some state). -/
theorem step_calls {c : SpaceResourceModel → UpdRes} {r : UpdRes} {x : ApiCall}
    (hx : x ∈ (step c r).calls) : x ∈ r.calls ∨ ∃ st, x ∈ (c st).calls := by
  cases h : r.error with
  | some e => rw [step_err h] at hx; exact Or.inl hx
  | none =>
    rw [step_ok h] at hx
    simp only [List.mem_append] at hx
    rcases hx with hx | hx
    · exact Or.inl hx
    · exact Or.inr ⟨r.state, hx⟩

/-- When every per-property comparison finds no drift and both
sub-collections are unmanaged, Update issues no calls, reports no error, and
returns the observed state unchanged. -/
theorem update_noop (env : UpdateEnv) (data state : SpaceResourceModel)
    (h1 : state.name.valueString = data.name.valueString)
    (h2 : state.priv = data.priv)
    (h3 : data.secrets.unset = true)
    (h4 : data.vars.unset = true)
    (h5 : state.hardware.valueString = data.hardware.valueString)
    (h6 : state.storage.valueString = data.storage.valueString)
    (h7 : state.sleepTime.valueInt64 = data.sleepTime.valueInt64) :
    updateSpace env data state = ⟨[], none, state⟩ := by
  unfold updateSpace
  rw [renameCore_noop env data state h1]
  rw [@step_noop (visibilityCore env data) ⟨[], none, state⟩ rfl (visibilityCore_noop env data state h2)]
  rw [@step_noop (secretsCore env data) ⟨[], none, state⟩ rfl (secretsCore_noop env data state h3)]
  rw [@step_noop (variablesCore env data) ⟨[], none, state⟩ rfl (variablesCore_noop env data state h4)]
  rw [@step_noop (hardwareCore env data) ⟨[], none, state⟩ rfl (hardwareCore_noop env data state h5)]
  rw [@step_noop (storageCore env data) ⟨[], none, state⟩ rfl (storageCore_noop env data state h6)]
  rw [@step_noop (sleepTimeCore env data) ⟨[], none, state⟩ rfl (sleepTimeCore_noop env data state h7)]

/-- The state returned by Update is the observed state with at most the
identifier, name, secrets, variables, hardware, storage and sleep-time
fields replaced: every other field is carried through untouched. -/
theorem update_state_shape (env : UpdateEnv) (data state : SpaceResourceModel) :
    ∃ i nm sec va hw stg slp,
      (updateSpace env data state).state =
        { state with id := i, name := nm, secrets := sec, vars := va,
                     hardware := hw, storage := stg, sleepTime := slp } := by
  unfold updateSpace
  have p1 : ∃ i nm sec va hw stg slp,
      (renameCore env data state).state =
        { state with id := i, name := nm, secrets := sec, vars := va,
                     hardware := hw, storage := stg, sleepTime := slp } := by
    rcases renameCore_state env data state with h | h
    · exact ⟨state.id, state.name, state.secrets, state.vars, state.hardware, state.storage,
        state.sleepTime, by rw [h]⟩
    · exact ⟨_, _, state.secrets, state.vars, state.hardware, state.storage,
        state.sleepTime, by rw [h]⟩
  obtain ⟨i1, n1, s1, v1, h1, g1, l1, hp1⟩ := p1
  have p2 : ∃ i nm sec va hw stg slp,
      (step (visibilityCore env data) (renameCore env data state)).state =
        { state with id := i, name := nm, secrets := sec, vars := va,
                     hardware := hw, storage := stg, sleepTime := slp } := by
    rcases step_state (visibilityCore env data) (renameCore env data state) with h | h
    · exact ⟨i1, n1, s1, v1, h1, g1, l1, by rw [h, hp1]⟩
    · rw [h, visibilityCore_state]
      exact ⟨i1, n1, s1, v1, h1, g1, l1, hp1⟩
  obtain ⟨i2, n2, s2, v2, h2, g2, l2, hp2⟩ := p2
  have p3 : ∃ i nm sec va hw stg slp,
      (step (secretsCore env data)
        (step (visibilityCore env data) (renameCore env data state))).state =
        { state with id := i, name := nm, secrets := sec, vars := va,
                     hardware := hw, storage := stg, sleepTime := slp } := by
    rcases step_state (secretsCore env data)
        (step (visibilityCore env data) (renameCore env data state)) with h | h
    · exact ⟨i2, n2, s2, v2, h2, g2, l2, by rw [h, hp2]⟩
    · rcases secretsCore_state env data
          (step (visibilityCore env data) (renameCore env data state)).state with h3 | h3
      · exact ⟨i2, n2, s2, v2, h2, g2, l2, by rw [h, h3, hp2]⟩
      · exact ⟨i2, n2, TFMap.value data.secrets.elements, v2, h2, g2, l2, by rw [h, h3, hp2]⟩
  obtain ⟨i3, n3, s3, v3, h3, g3, l3, hp3⟩ := p3
  have p4 : ∃ i nm sec va hw stg slp,
      (step (variablesCore env data) (step (secretsCore env data)
        (step (visibilityCore env data) (renameCore env data state)))).state =
        { state with id := i, name := nm, secrets := sec, vars := va,
                     hardware := hw, storage := stg, sleepTime := slp } := by
    rcases step_state (variablesCore env data) (step (secretsCore env data)
        (step (visibilityCore env data) (renameCore env data state))) with h | h
    · exact ⟨i3, n3, s3, v3, h3, g3, l3, by rw [h, hp3]⟩
    · rcases variablesCore_state env data (step (secretsCore env data)
          (step (visibilityCore env data) (renameCore env data state))).state with h4 | h4
      · exact ⟨i3, n3, s3, v3, h3, g3, l3, by rw [h, h4, hp3]⟩
      · exact ⟨i3, n3, s3, TFMap.value data.vars.elements, h3, g3, l3, by rw [h, h4, hp3]⟩
  obtain ⟨i4, n4, s4, v4, h4, g4, l4, hp4⟩ := p4
  have p5 : ∃ i nm sec va hw stg slp,
      (step (hardwareCore env data) (step (variablesCore env data) (step (secretsCore env data)
        (step (visibilityCore env data) (renameCore env data state))))).state =
        { state with id := i, name := nm, secrets := sec, vars := va,
                     hardware := hw, storage := stg, sleepTime := slp } := by
    rcases step_state (hardwareCore env data) (step (variablesCore env data)
        (step (secretsCore env data)
          (step (visibilityCore env data) (renameCore env data state)))) with h | h
    · exact ⟨i4, n4, s4, v4, h4, g4, l4, by rw [h, hp4]⟩
    · rcases hardwareCore_state env data (step (variablesCore env data) (step (secretsCore env data)
          (step (visibilityCore env data) (renameCore env data state)))).state with h5 | ⟨_, h5⟩
      · exact ⟨i4, n4, s4, v4, h4, g4, l4, by rw [h, h5, hp4]⟩
      · exact ⟨i4, n4, s4, v4, data.hardware, g4, l4, by rw [h, h5, hp4]⟩
  obtain ⟨i5, n5, s5, v5, h5, g5, l5, hp5⟩ := p5
  have p6 : ∃ i nm sec va hw stg slp,
      (step (storageCore env data) (step (hardwareCore env data) (step (variablesCore env data)
        (step (secretsCore env data)
          (step (visibilityCore env data) (renameCore env data state)))))).state =
        { state with id := i, name := nm, secrets := sec, vars := va,
                     hardware := hw, storage := stg, sleepTime := slp } := by
    rcases step_state (storageCore env data) (step (hardwareCore env data)
        (step (variablesCore env data) (step (secretsCore env data)
          (step (visibilityCore env data) (renameCore env data state))))) with h | h
    · exact ⟨i5, n5, s5, v5, h5, g5, l5, by rw [h, hp5]⟩
    · rcases storageCore_state env data (step (hardwareCore env data) (step (variablesCore env data)
          (step (secretsCore env data)
            (step (visibilityCore env data) (renameCore env data state))))).state with h6 | ⟨_, h6⟩
      · exact ⟨i5, n5, s5, v5, h5, g5, l5, by rw [h, h6, hp5]⟩
      · exact ⟨i5, n5, s5, v5, h5, data.storage, l5, by rw [h, h6, hp5]⟩
  obtain ⟨i6, n6, s6, v6, h6, g6, l6, hp6⟩ := p6
  rcases step_state (sleepTimeCore env data) (step (storageCore env data)
      (step (hardwareCore env data) (step (variablesCore env data) (step (secretsCore env data)
        (step (visibilityCore env data) (renameCore env data state)))))) with h | h
  · exact ⟨i6, n6, s6, v6, h6, g6, l6, by rw [h, hp6]⟩
  · rcases sleepTimeCore_state env data (step (storageCore env data)
        (step (hardwareCore env data) (step (variablesCore env data) (step (secretsCore env data)
          (step (visibilityCore env data) (renameCore env data state)))))).state with h7 | ⟨_, h7⟩
    · exact ⟨i6, n6, s6, v6, h6, g6, l6, by rw [h, h7, hp6]⟩
    · exact ⟨i6, n6, s6, v6, h6, g6, data.sleepTime, by rw [h, h7, hp6]⟩

/-- Every call Update issues comes from one of the seven fixed
reconciliation steps. -/
theorem update_calls_mem (env : UpdateEnv) (data state : SpaceResourceModel) (x : ApiCall)
    (hx : x ∈ (updateSpace env data state).calls) :
    x.stepOf = 1 ∨ x.stepOf = 2 ∨
      (∃ st, x ∈ (secretsCore env data st).calls) ∨
      (∃ st, x ∈ (variablesCore env data st).calls) ∨
      x.stepOf = 5 ∨ x.stepOf = 6 ∨ x.stepOf = 7 := by
  unfold updateSpace at hx
  rcases step_calls hx with hx | ⟨st, hx⟩
  · rcases step_calls hx with hx | ⟨st, hx⟩
    · rcases step_calls hx with hx | ⟨st, hx⟩
      · rcases step_calls hx with hx | ⟨st, hx⟩
        · rcases step_calls hx with hx | ⟨st, hx⟩
          · rcases step_calls hx with hx | ⟨st, hx⟩
            · exact Or.inl (renameCore_calls env data state x hx)
            · exact Or.inr (Or.inl (visibilityCore_calls env data st x hx))
          · exact Or.inr (Or.inr (Or.inl ⟨st, hx⟩))
        · exact Or.inr (Or.inr (Or.inr (Or.inl ⟨st, hx⟩)))
      · exact Or.inr (Or.inr (Or.inr (Or.inr (Or.inl (hardwareCore_calls env data st x hx)))))
    · exact Or.inr (Or.inr (Or.inr (Or.inr (Or.inr (Or.inl (storageCore_calls env data st x hx))))))
  · exact Or.inr (Or.inr (Or.inr (Or.inr (Or.inr (Or.inr (sleepTimeCore_calls env data st x hx))))))

/-- Stage 1 of Update: after the rename step. -/
abbrev upd1 (env : UpdateEnv) (data state : SpaceResourceModel) : UpdRes :=
  renameCore env data state

/-- Stage 2 of Update: after the visibility step. -/
abbrev upd2 (env : UpdateEnv) (data state : SpaceResourceModel) : UpdRes :=
  step (visibilityCore env data) (upd1 env data state)

/-- Stage 3 of Update: after the secrets step. -/
abbrev upd3 (env : UpdateEnv) (data state : SpaceResourceModel) : UpdRes :=
  step (secretsCore env data) (upd2 env data state)

/-- Stage 4 of Update: after the variables step. -/
abbrev upd4 (env : UpdateEnv) (data state : SpaceResourceModel) : UpdRes :=
  step (variablesCore env data) (upd3 env data state)

/-- Stage 5 of Update: after the hardware step. -/
abbrev upd5 (env : UpdateEnv) (data state : SpaceResourceModel) : UpdRes :=
  step (hardwareCore env data) (upd4 env data state)

/-- Stage 6 of Update: after the storage step. -/
abbrev upd6 (env : UpdateEnv) (data state : SpaceResourceModel) : UpdRes :=
  step (storageCore env data) (upd5 env data state)

/-- Update is the seven stages in order. -/
theorem updateSpace_stages (env : UpdateEnv) (data state : SpaceResourceModel) :
    updateSpace env data state = step (sleepTimeCore env data) (upd6 env data state) := rfl

/-- With unmanaged desired secrets, the whole Update pass carries the
observed secrets through unchanged. -/
theorem update_secrets_unset (env : UpdateEnv) (data state : SpaceResourceModel)
    (h : data.secrets.unset = true) :
    (updateSpace env data state).state.secrets = state.secrets := by
  have w : ∀ (c : SpaceResourceModel → UpdRes) (r : UpdRes),
      (∀ st, (c st).state.secrets = st.secrets) →
      (step c r).state.secrets = r.state.secrets := by
    intro c r hc
    rcases step_state c r with hs | hs <;> rw [hs]
    exact hc r.state
  have f1 : ∀ st, (renameCore env data st).state.secrets = st.secrets := fun st => by
    rcases renameCore_state env data st with hs | hs <;> rw [hs]
  have f2 : ∀ st, (visibilityCore env data st).state.secrets = st.secrets := fun st => by
    rw [visibilityCore_state]
  have f3 : ∀ st, (secretsCore env data st).state.secrets = st.secrets := fun st => by
    rw [secretsCore_noop env data st h]
  have f4 : ∀ st, (variablesCore env data st).state.secrets = st.secrets := fun st => by
    rcases variablesCore_state env data st with hs | hs <;> rw [hs]
  have f5 : ∀ st, (hardwareCore env data st).state.secrets = st.secrets := fun st => by
    rcases hardwareCore_state env data st with hs | ⟨_, hs⟩ <;> rw [hs]
  have f6 : ∀ st, (storageCore env data st).state.secrets = st.secrets := fun st => by
    rcases storageCore_state env data st with hs | ⟨_, hs⟩ <;> rw [hs]
  have f7 : ∀ st, (sleepTimeCore env data st).state.secrets = st.secrets := fun st => by
    rcases sleepTimeCore_state env data st with hs | ⟨_, hs⟩ <;> rw [hs]
  show (step (sleepTimeCore env data) (upd6 env data state)).state.secrets = state.secrets
  rw [w _ _ f7, w _ _ f6, w _ _ f5, w _ _ f4, w _ _ f3, w _ _ f2, f1]

/-- With unmanaged desired variables, the whole Update pass carries the
observed variables through unchanged. -/
theorem update_vars_unset (env : UpdateEnv) (data state : SpaceResourceModel)
    (h : data.vars.unset = true) :
    (updateSpace env data state).state.vars = state.vars := by
  have w : ∀ (c : SpaceResourceModel → UpdRes) (r : UpdRes),
      (∀ st, (c st).state.vars = st.vars) →
      (step c r).state.vars = r.state.vars := by
    intro c r hc
    rcases step_state c r with hs | hs <;> rw [hs]
    exact hc r.state
  have f1 : ∀ st, (renameCore env data st).state.vars = st.vars := fun st => by
    rcases renameCore_state env data st with hs | hs <;> rw [hs]
  have f2 : ∀ st, (visibilityCore env data st).state.vars = st.vars := fun st => by
    rw [visibilityCore_state]
  have f3 : ∀ st, (secretsCore env data st).state.vars = st.vars := fun st => by
    rcases secretsCore_state env data st with hs | hs <;> rw [hs]
  have f4 : ∀ st, (variablesCore env data st).state.vars = st.vars := fun st => by
    rw [variablesCore_noop env data st h]
  have f5 : ∀ st, (hardwareCore env data st).state.vars = st.vars := fun st => by
    rcases hardwareCore_state env data st with hs | ⟨_, hs⟩ <;> rw [hs]
  have f6 : ∀ st, (storageCore env data st).state.vars = st.vars := fun st => by
    rcases storageCore_state env data st with hs | ⟨_, hs⟩ <;> rw [hs]
  have f7 : ∀ st, (sleepTimeCore env data st).state.vars = st.vars := fun st => by
    rcases sleepTimeCore_state env data st with hs | ⟨_, hs⟩ <;> rw [hs]
  show (step (sleepTimeCore env data) (upd6 env data state)).state.vars = state.vars
  rw [w _ _ f7, w _ _ f6, w _ _ f5, w _ _ f4, w _ _ f3, w _ _ f2, f1]

/-- A call of step kind other than 3 touches no secrets endpoint. -/
theorem stepOf_ne3_touchesSecrets (x : ApiCall) (h : x.stepOf ≠ 3) : x.touchesSecrets = false := by
  cases x <;> first
    | rfl
    | exact absurd rfl h

/-- A call of step kind other than 4 touches no variables endpoint. -/
theorem stepOf_ne4_touchesVariables (x : ApiCall) (h : x.stepOf ≠ 4) : x.touchesVariables = false := by
  cases x <;> first
    | rfl
    | exact absurd rfl h

/-- A fully populated observed state used as a concrete test fixture. -/
def baseState : SpaceResourceModel :=
  { id := .value "alice/space", name := .value "space", priv := .value false,
    sdk := .value "gradio", template := .value "base", secrets := .null, vars := .null,
    hardware := .value "cpu-basic", host := .null, storage := .value "small",
    sleepTime := .value 3600, author := .value "alice", lastModified := .value "2024-01-01",
    likes := .value 0, tags := .null }

/-- An environment in which every remote call succeeds (listings return 404
so no stale keys are reported). -/
def okEnv : UpdateEnv :=
  { renameSpace := .reply 200, setVisibility := .reply 200,
    fetchSecrets := .reply 404 none, deleteSecret := fun _ => .reply 200,
    addSecret := fun _ => .reply 200, fetchVariables := .reply 404 none,
    deleteVariable := fun _ => .reply 200, addVariable := fun _ => .reply 200,
    setHardware := .reply 200 true, setStorage := .reply 200 true,
    setSleepTime := .reply 200 true }

/-- Observed state for the simultaneous rename-and-hardware drift scenario. -/
def c1State : SpaceResourceModel :=
  { baseState with id := .value "alice/old", name := .value "old" }

/-- Desired config for the same scenario: new name, new hardware; the plan
identifier is the prior state identifier, as the framework carries it. -/
def c1Data : SpaceResourceModel :=
  { c1State with name := .value "new", hardware := .value "a10g" }

set_option maxRecDepth 400000

/-- Claim C1: when both the name and the hardware tier drift, the rename
call is issued before the hardware call, but the hardware endpoint is built
from the plan identifier `data.ID` — the pre-rename identifier `alice/old` —
even though the rename produced `alice/new` and the working state already
carries the new identifier. The spec requires the post-rename identifier,
so this run exhibits the divergence. -/
theorem claim1_hardware_uses_prerename_id :
    (updateSpace okEnv c1Data c1State).calls =
      [ApiCall.renameSpace "alice/old" "alice/new", ApiCall.setHardware "alice/old" "a10g"] ∧
    (updateSpace okEnv c1Data c1State).state.id = TFString.value "alice/new" ∧
    (updateSpace okEnv c1Data c1State).error = none := by decide

/-- Desired config whose only drift against `baseState` is visibility. -/
def c3Data : SpaceResourceModel := { baseState with priv := .value true }

/-- Claim C3: drift in the visibility flag triggers the visibility call and
the call succeeds, yet the returned observed state still carries the old
visibility value `false` — the code never overwrites it with the desired
value, contradicting the per-property overwrite rule that name, hardware,
storage and sleep-time follow. -/
theorem claim3_visibility_not_overwritten :
    (updateSpace okEnv c3Data baseState).error = none ∧
    (updateSpace okEnv c3Data baseState).calls = [ApiCall.setVisibility "alice/space" true] ∧
    (updateSpace okEnv c3Data baseState).state.priv = TFBool.value false ∧
    c3Data.priv = TFBool.value true := by decide

/-- A config equal to the observed state but with a managed secrets map. -/
def c2Cfg : SpaceResourceModel := { baseState with secrets := .value [("a", "1")] }

/-- Environment for the C2 counterexample: the secrets listing reports the
key `a`, all other calls succeed. -/
def c2Env : UpdateEnv := { okEnv with fetchSecrets := .reply 200 (some ["a"]) }

/-- Claim C2 counterexample: with desired config equal to observed state but
a managed (non-null) secrets map, Update still issues three remote calls
(listing, delete, re-add), refuting the zero-remote-calls idempotence claim
for managed sub-collections. -/
theorem claim2_counterexample :
    (updateSpace c2Env c2Cfg c2Cfg).calls =
      [ApiCall.fetchSecrets "alice/space", ApiCall.deleteSecret "alice/space" "a",
        ApiCall.addSecret "alice/space" "a" "1"] ∧
    (updateSpace c2Env c2Cfg c2Cfg).calls ≠ [] := by decide

/-- Claim C2 (amended): when desired config and observed state are equal
and both sub-collection maps are unset (null or unknown), Update issues
zero remote calls, reports no error, and returns the observed state
unchanged. -/
theorem claim2_idempotent_unmanaged (env : UpdateEnv) (d : SpaceResourceModel)
    (hs : d.secrets.unset = true) (hv : d.vars.unset = true) :
    updateSpace env d d = ⟨[], none, d⟩ :=
  update_noop env d d rfl rfl hs hv rfl rfl rfl

/-- Witness for the amended claim C2 at a concrete input. -/
theorem claim2_idempotent_unmanaged_witness :
    updateSpace okEnv baseState baseState = ⟨[], none, baseState⟩ :=
  claim2_idempotent_unmanaged okEnv baseState (by decide) (by decide)

/-- Claim C5: an unset (null or unknown) desired secrets map causes no
secrets call to be issued and leaves the observed secrets untouched, and
likewise for the variables map. -/
theorem claim5_unmanaged_untouched (env : UpdateEnv) (data state : SpaceResourceModel) :
    (data.secrets.unset = true →
      (∀ x ∈ (updateSpace env data state).calls, x.touchesSecrets = false) ∧
      (updateSpace env data state).state.secrets = state.secrets) ∧
    (data.vars.unset = true →
      (∀ x ∈ (updateSpace env data state).calls, x.touchesVariables = false) ∧
      (updateSpace env data state).state.vars = state.vars) := by
  constructor
  · intro h
    refine ⟨?_, update_secrets_unset env data state h⟩
    intro x hx
    rcases update_calls_mem env data state x hx with h1 | h2 | ⟨st, h3⟩ | ⟨st, h4⟩ | h5 | h6 | h7
    · exact stepOf_ne3_touchesSecrets x (by omega)
    · exact stepOf_ne3_touchesSecrets x (by omega)
    · rw [secretsCore_noop env data st h] at h3
      simp at h3
    · exact stepOf_ne3_touchesSecrets x (by rw [variablesCore_calls env data st x h4]; omega)
    · exact stepOf_ne3_touchesSecrets x (by omega)
    · exact stepOf_ne3_touchesSecrets x (by omega)
    · exact stepOf_ne3_touchesSecrets x (by omega)
  · intro h
    refine ⟨?_, update_vars_unset env data state h⟩
    intro x hx
    rcases update_calls_mem env data state x hx with h1 | h2 | ⟨st, h3⟩ | ⟨st, h4⟩ | h5 | h6 | h7
    · exact stepOf_ne4_touchesVariables x (by omega)
    · exact stepOf_ne4_touchesVariables x (by omega)
    · exact stepOf_ne4_touchesVariables x (by rw [secretsCore_calls env data st x h3]; omega)
    · rw [variablesCore_noop env data st h] at h4
      simp at h4
    · exact stepOf_ne4_touchesVariables x (by omega)
    · exact stepOf_ne4_touchesVariables x (by omega)
    · exact stepOf_ne4_touchesVariables x (by omega)

/-- Witness for claim C5 at a concrete input: hardware drift with both
sub-collection maps null leaves both sub-collections of the state
untouched. -/
theorem claim5_unmanaged_untouched_witness :
    (updateSpace okEnv c1Data c1State).state.secrets = c1State.secrets ∧
    (updateSpace okEnv c1Data c1State).state.vars = c1State.vars :=
  ⟨((claim5_unmanaged_untouched okEnv c1Data c1State).1 (by decide)).2,
    ((claim5_unmanaged_untouched okEnv c1Data c1State).2 (by decide)).2⟩

/-- Claim C10: Update never reconciles the SDK or template fields — the
returned state always carries the observed SDK and template unchanged, and
when only those (or other untracked) fields drift while the seven tracked
comparisons find no drift, Update issues no remote call at all and returns
the observed state unchanged. -/
theorem claim10_sdk_template_never_reconciled (env : UpdateEnv) (data state : SpaceResourceModel) :
    ((updateSpace env data state).state.sdk = state.sdk ∧
      (updateSpace env data state).state.template = state.template) ∧
    (state.name.valueString = data.name.valueString → state.priv = data.priv →
      data.secrets.unset = true → data.vars.unset = true →
      state.hardware.valueString = data.hardware.valueString →
      state.storage.valueString = data.storage.valueString →
      state.sleepTime.valueInt64 = data.sleepTime.valueInt64 →
      updateSpace env data state = ⟨[], none, state⟩) := by
  constructor
  · obtain ⟨i, nm, sec, va, hw, stg, slp, h⟩ := update_state_shape env data state
    rw [h]
    exact ⟨rfl, rfl⟩
  · intro h1 h2 h3 h4 h5 h6 h7
    exact update_noop env data state h1 h2 h3 h4 h5 h6 h7

/-- Desired config that drifts from `baseState` only in SDK and template. -/
def c10Data : SpaceResourceModel :=
  { baseState with sdk := .value "static", template := .value "docker" }

/-- Witness for claim C10 at a concrete input: SDK and template drift alone
triggers no call and the old values are silently retained. -/
theorem claim10_sdk_template_never_reconciled_witness :
    updateSpace okEnv c10Data baseState = ⟨[], none, baseState⟩ ∧
    (updateSpace okEnv c10Data baseState).state.sdk = baseState.sdk :=
  ⟨(claim10_sdk_template_never_reconciled okEnv c10Data baseState).2 rfl rfl (by decide) (by decide)
      rfl rfl rfl,
    (claim10_sdk_template_never_reconciled okEnv c10Data baseState).1.1⟩

/-- Claim C7: in sub-collection reconciliation, a fetch that returns a
non-success status skips the deletion phase and proceeds directly to the
add phase; a delete is only ever issued after a fetch that returned
status 200 with a decoded body; and a transport error on the fetch aborts
the step (and with it the pass) with an error. Both the secrets and the
variables reconciliation behave this way. -/
theorem claim7_fetch_failure_handling (env : UpdateEnv) (data st : SpaceResourceModel) :
    (∀ m, data.secrets = TFMap.value m →
      (∀ n decoded, env.fetchSecrets = FetchOutcome.reply n decoded → (n < 200 ∨ 300 ≤ n) →
        (secretsCore env data st).calls =
          ApiCall.fetchSecrets data.id.valueString ::
            (runAdds env.addSecret ApiCall.addSecret UErr.addSecretTransport UErr.addSecretApi
              data.id.valueString m).1 ∧
        ∀ x ∈ (secretsCore env data st).calls, x.isDeleteSecret = false) ∧
      ((∃ x ∈ (secretsCore env data st).calls, x.isDeleteSecret = true) →
        ∃ keys, env.fetchSecrets = FetchOutcome.reply 200 (some keys)) ∧
      (env.fetchSecrets = FetchOutcome.transport →
        secretsCore env data st =
          ⟨[ApiCall.fetchSecrets data.id.valueString], some UErr.secretsFetchTransport, st⟩)) ∧
    (∀ m, data.vars = TFMap.value m →
      (∀ n decoded, env.fetchVariables = FetchOutcome.reply n decoded → (n < 200 ∨ 300 ≤ n) →
        (variablesCore env data st).calls =
          ApiCall.fetchVariables data.id.valueString ::
            (runAdds env.addVariable ApiCall.addVariable UErr.addVariableTransport UErr.addVariableApi
              data.id.valueString m).1 ∧
        ∀ x ∈ (variablesCore env data st).calls, x.isDeleteVariable = false) ∧
      ((∃ x ∈ (variablesCore env data st).calls, x.isDeleteVariable = true) →
        ∃ keys, env.fetchVariables = FetchOutcome.reply 200 (some keys)) ∧
      (env.fetchVariables = FetchOutcome.transport →
        variablesCore env data st =
          ⟨[ApiCall.fetchVariables data.id.valueString], some UErr.variablesFetchTransport, st⟩)) := by
  constructor
  · intro m hm
    refine ⟨?_, ?_, ?_⟩
    · intro n decoded hf hn
      have hc := secretsCore_non200 env data st m n decoded hm hf (by omega)
      refine ⟨hc, ?_⟩
      intro x hx
      rw [hc] at hx
      simp only [List.mem_cons] at hx
      rcases hx with rfl | hx
      · rfl
      · obtain ⟨p, hp, rfl⟩ := runAdds_calls _ _ _ _ _ _ _ hx
        rfl
    · rintro ⟨x, hx, hdel⟩
      exact secretsCore_delete_200 env data st x hx hdel
    · intro hf
      exact secretsCore_fetchTransport env data st m hm hf
  · intro m hm
    refine ⟨?_, ?_, ?_⟩
    · intro n decoded hf hn
      have hc := variablesCore_non200 env data st m n decoded hm hf (by omega)
      refine ⟨hc, ?_⟩
      intro x hx
      rw [hc] at hx
      simp only [List.mem_cons] at hx
      rcases hx with rfl | hx
      · rfl
      · obtain ⟨p, hp, rfl⟩ := runAdds_calls _ _ _ _ _ _ _ hx
        rfl
    · rintro ⟨x, hx, hdel⟩
      exact variablesCore_delete_200 env data st x hx hdel
    · intro hf
      exact variablesCore_fetchTransport env data st m hm hf

/-- Desired config with managed secrets and variables maps. -/
def c7Data : SpaceResourceModel :=
  { baseState with secrets := .value [("k", "v")], vars := .value [("w", "z")] }

/-- Environment for the C7 witness: the secrets listing replies 404, the
variables listing fails at the transport level. -/
def c7Env : UpdateEnv := { okEnv with fetchVariables := .transport }

/-- Witness for claim C7 at concrete inputs: the 404 listing yields a fetch
followed directly by the add (no delete), and the transport-failing
variables listing aborts the variables step with its fetch error. -/
theorem claim7_fetch_failure_handling_witness :
    (secretsCore c7Env c7Data baseState).calls =
      [ApiCall.fetchSecrets "alice/space", ApiCall.addSecret "alice/space" "k" "v"] ∧
    variablesCore c7Env c7Data baseState =
      ⟨[ApiCall.fetchVariables "alice/space"], some UErr.variablesFetchTransport, baseState⟩ :=
  ⟨(((claim7_fetch_failure_handling c7Env c7Data baseState).1 [("k", "v")] rfl).1 404 none rfl
        (by omega)).1.trans (by decide),
    ((claim7_fetch_failure_handling c7Env c7Data baseState).2 [("w", "z")] rfl).2.2 rfl⟩

/-- Claim C4: with a managed desired secrets map `m` and a 200 listing that
reports the remote keys `keys`, a fully successful Update issues one delete
per listed key and one add per desired pair — the fetch, all deletes, then
all adds form one contiguous segment of the trace, with no other secrets
call anywhere else — and the returned state's secrets are exactly `m`,
taken from the desired map rather than re-fetched. -/
theorem claim4_replace_all (env : UpdateEnv) (data state : SpaceResourceModel)
    (m : List (String × String)) (keys : List String)
    (hm : data.secrets = TFMap.value m)
    (hf : env.fetchSecrets = FetchOutcome.reply 200 (some keys))
    (hok : (updateSpace env data state).error = none) :
    (∀ k ∈ keys, ApiCall.deleteSecret data.id.valueString k ∈ (updateSpace env data state).calls) ∧
    (∀ p ∈ m, ApiCall.addSecret data.id.valueString p.1 p.2 ∈ (updateSpace env data state).calls) ∧
    (∃ pre post, (updateSpace env data state).calls =
        pre ++ (ApiCall.fetchSecrets data.id.valueString ::
          (keys.map (fun k => ApiCall.deleteSecret data.id.valueString k) ++
            m.map fun p => ApiCall.addSecret data.id.valueString p.1 p.2)) ++ post ∧
      (∀ x ∈ pre, x.touchesSecrets = false) ∧ (∀ x ∈ post, x.touchesSecrets = false)) ∧
    (updateSpace env data state).state.secrets = TFMap.value m := by
  rw [updateSpace_stages] at hok
  have e6 : (upd6 env data state).error = none := step_error_none hok
  have e5 : (upd5 env data state).error = none := step_error_none e6
  have e4 : (upd4 env data state).error = none := step_error_none e5
  have e3 : (upd3 env data state).error = none := step_error_none e4
  have e2 : (upd2 env data state).error = none := step_error_none e3
  have hce : (secretsCore env data (upd2 env data state).state).error = none := by
    have h3 := e3
    rw [show upd3 env data state = step (secretsCore env data) (upd2 env data state) from rfl,
      step_ok e2] at h3
    exact h3
  have hsec := secretsCore_success env data (upd2 env data state).state m keys hm hf hce
  have hseg : (secretsCore env data (upd2 env data state).state).calls =
      ApiCall.fetchSecrets data.id.valueString ::
        (keys.map (fun k => ApiCall.deleteSecret data.id.valueString k) ++
          m.map fun p => ApiCall.addSecret data.id.valueString p.1 p.2) := by
    rw [hsec]
  have q7 : (updateSpace env data state).calls =
      (upd6 env data state).calls ++ (sleepTimeCore env data (upd6 env data state).state).calls := by
    rw [updateSpace_stages, step_ok e6]
  have q6 : (upd6 env data state).calls =
      (upd5 env data state).calls ++ (storageCore env data (upd5 env data state).state).calls := by
    show (step (storageCore env data) (upd5 env data state)).calls = _
    rw [step_ok e5]
  have q5 : (upd5 env data state).calls =
      (upd4 env data state).calls ++ (hardwareCore env data (upd4 env data state).state).calls := by
    show (step (hardwareCore env data) (upd4 env data state)).calls = _
    rw [step_ok e4]
  have q4 : (upd4 env data state).calls =
      (upd3 env data state).calls ++ (variablesCore env data (upd3 env data state).state).calls := by
    show (step (variablesCore env data) (upd3 env data state)).calls = _
    rw [step_ok e3]
  have q3 : (upd3 env data state).calls =
      (upd2 env data state).calls ++
        (ApiCall.fetchSecrets data.id.valueString ::
          (keys.map (fun k => ApiCall.deleteSecret data.id.valueString k) ++
            m.map fun p => ApiCall.addSecret data.id.valueString p.1 p.2)) := by
    show (step (secretsCore env data) (upd2 env data state)).calls = _
    rw [step_ok e2, hseg]
  have hdecomp : (updateSpace env data state).calls =
      (upd2 env data state).calls ++
        (ApiCall.fetchSecrets data.id.valueString ::
          (keys.map (fun k => ApiCall.deleteSecret data.id.valueString k) ++
            m.map fun p => ApiCall.addSecret data.id.valueString p.1 p.2)) ++
        ((variablesCore env data (upd3 env data state).state).calls ++
          ((hardwareCore env data (upd4 env data state).state).calls ++
            ((storageCore env data (upd5 env data state).state).calls ++
              (sleepTimeCore env data (upd6 env data state).state).calls))) := by
    rw [q7, q6, q5, q4, q3]
    simp [List.append_assoc]
  have hpre : ∀ x ∈ (upd2 env data state).calls, x.touchesSecrets = false := by
    intro x hx
    rcases step_calls hx with hx | ⟨st, hx⟩
    · exact stepOf_ne3_touchesSecrets x (by rw [renameCore_calls env data state x hx]; omega)
    · exact stepOf_ne3_touchesSecrets x (by rw [visibilityCore_calls env data st x hx]; omega)
  have hpost : ∀ x ∈ (variablesCore env data (upd3 env data state).state).calls ++
      ((hardwareCore env data (upd4 env data state).state).calls ++
        ((storageCore env data (upd5 env data state).state).calls ++
          (sleepTimeCore env data (upd6 env data state).state).calls)),
      x.touchesSecrets = false := by
    intro x hx
    simp only [List.mem_append] at hx
    rcases hx with hx | hx | hx | hx
    · exact stepOf_ne3_touchesSecrets x (by rw [variablesCore_calls env data _ x hx]; omega)
    · exact stepOf_ne3_touchesSecrets x (by rw [hardwareCore_calls env data _ x hx]; omega)
    · exact stepOf_ne3_touchesSecrets x (by rw [storageCore_calls env data _ x hx]; omega)
    · exact stepOf_ne3_touchesSecrets x (by rw [sleepTimeCore_calls env data _ x hx]; omega)
  refine ⟨?_, ?_, ⟨_, _, hdecomp, hpre, hpost⟩, ?_⟩
  · intro k hk
    rw [hdecomp]
    simp only [List.mem_append, List.mem_cons, List.mem_map]
    exact Or.inl (Or.inr (Or.inr (Or.inl ⟨k, hk, rfl⟩)))
  · intro p hp
    rw [hdecomp]
    simp only [List.mem_append, List.mem_cons, List.mem_map]
    exact Or.inl (Or.inr (Or.inr (Or.inr ⟨p, hp, rfl⟩)))
  · have h3s : (upd3 env data state).state.secrets = TFMap.value m := by
      rw [show upd3 env data state = step (secretsCore env data) (upd2 env data state) from rfl,
        step_ok e2]
      show (secretsCore env data (upd2 env data state).state).state.secrets = TFMap.value m
      rw [hsec]
    have w : ∀ (c : SpaceResourceModel → UpdRes) (r : UpdRes),
        (∀ st, (c st).state.secrets = st.secrets) →
        (step c r).state.secrets = r.state.secrets := by
      intro c r hc
      rcases step_state c r with hs | hs <;> rw [hs]
      exact hc r.state
    have f4 : ∀ st, (variablesCore env data st).state.secrets = st.secrets := fun st => by
      rcases variablesCore_state env data st with hs | hs <;> rw [hs]
    have f5 : ∀ st, (hardwareCore env data st).state.secrets = st.secrets := fun st => by
      rcases hardwareCore_state env data st with hs | ⟨_, hs⟩ <;> rw [hs]
    have f6 : ∀ st, (storageCore env data st).state.secrets = st.secrets := fun st => by
      rcases storageCore_state env data st with hs | ⟨_, hs⟩ <;> rw [hs]
    have f7 : ∀ st, (sleepTimeCore env data st).state.secrets = st.secrets := fun st => by
      rcases sleepTimeCore_state env data st with hs | ⟨_, hs⟩ <;> rw [hs]
    rw [updateSpace_stages]
    rw [w _ _ f7, w _ _ f6, w _ _ f5, w _ _ f4]
    exact h3s

/-- Observed state with stale remote secrets for the C4 witness. -/
def c4State : SpaceResourceModel := { baseState with secrets := .value [("a", "1"), ("b", "2")] }

/-- Desired secrets map for the C4 witness. -/
def c4Data : SpaceResourceModel := { baseState with secrets := .value [("b", "2"), ("c", "3")] }

/-- Environment for the C4 witness: the listing reports keys `a` and `b`. -/
def c4Env : UpdateEnv := { okEnv with fetchSecrets := .reply 200 (some ["a", "b"]) }

/-- Witness for claim C4 at the spec's own example: observed `{a:1, b:2}`,
desired `{b:2, c:3}` — deletes for `a` and `b`, adds for `b` and `c`, and
resulting observed secrets exactly the desired map. -/
theorem claim4_replace_all_witness :
    ApiCall.deleteSecret "alice/space" "a" ∈ (updateSpace c4Env c4Data c4State).calls ∧
    ApiCall.deleteSecret "alice/space" "b" ∈ (updateSpace c4Env c4Data c4State).calls ∧
    ApiCall.addSecret "alice/space" "b" "2" ∈ (updateSpace c4Env c4Data c4State).calls ∧
    ApiCall.addSecret "alice/space" "c" "3" ∈ (updateSpace c4Env c4Data c4State).calls ∧
    (updateSpace c4Env c4Data c4State).state.secrets = TFMap.value [("b", "2"), ("c", "3")] := by
  have h := claim4_replace_all c4Env c4Data c4State [("b", "2"), ("c", "3")] ["a", "b"]
    rfl rfl (by decide)
  exact ⟨h.1 "a" (by decide), h.1 "b" (by decide), h.2.1 ("b", "2") (by decide),
    h.2.1 ("c", "3") (by decide), h.2.2.2⟩

/-- Claim C6: when the name drifted and Update fails at the hardware call
(transport error or non-success status), Update returns an error, no storage
or sleep-time call was ever issued, and the working state it carries at
abort reflects the rename — the post-rename identifier and the desired
name — while storage and sleep-time are still the observed values. -/
theorem claim6_hardware_failure_after_rename (env : UpdateEnv) (data state : SpaceResourceModel)
    (hname : state.name.valueString ≠ data.name.valueString)
    (herr : (updateSpace env data state).error = some UErr.hardwareTransport ∨
      ∃ n, (updateSpace env data state).error = some (UErr.hardwareApi n)) :
    (updateSpace env data state).error ≠ none ∧
    (∀ x ∈ (updateSpace env data state).calls, x.stepOf ≠ 6 ∧ x.stepOf ≠ 7) ∧
    (updateSpace env data state).state.id =
      TFString.value (ownerOf state.id.valueString ++ "/" ++ data.name.valueString) ∧
    (updateSpace env data state).state.name = data.name ∧
    (updateSpace env data state).state.storage = state.storage ∧
    (updateSpace env data state).state.sleepTime = state.sleepTime := by
  obtain ⟨e, he, hk5⟩ : ∃ e, (updateSpace env data state).error = some e ∧ e.stepOf = 5 := by
    rcases herr with h | ⟨n, h⟩
    · exact ⟨_, h, rfl⟩
    · exact ⟨_, h, rfl⟩
  rw [updateSpace_stages] at he ⊢
  have h6 : (upd6 env data state).error = some e := by
    cases h6e : (upd6 env data state).error with
    | none =>
      rw [step_ok h6e] at he
      have h7k := sleepTimeCore_error env data _ e he
      omega
    | some e6 =>
      rw [step_err h6e] at he
      rw [← h6e]
      exact he
  rw [step_err h6]
  have h5 : (upd5 env data state).error = some e := by
    cases h5e : (upd5 env data state).error with
    | none =>
      have htmp := h6
      rw [show upd6 env data state = step (storageCore env data) (upd5 env data state) from rfl,
        step_ok h5e] at htmp
      have h6k := storageCore_error env data _ e htmp
      omega
    | some e5 =>
      have htmp := h6
      rw [show upd6 env data state = step (storageCore env data) (upd5 env data state) from rfl,
        step_err h5e] at htmp
      rw [← h5e]
      exact htmp
  rw [show upd6 env data state = step (storageCore env data) (upd5 env data state) from rfl,
    step_err h5]
  have h4 : (upd4 env data state).error = none := by
    cases h4e : (upd4 env data state).error with
    | none => rfl
    | some e4 =>
      have htmp := h5
      rw [show upd5 env data state = step (hardwareCore env data) (upd4 env data state) from rfl,
        step_err h4e] at htmp
      rw [h4e] at htmp
      injection htmp with heq
      subst heq
      rcases step_error_some h4e with hcase | ⟨_, hcore⟩
      · rcases step_error_some hcase with hcase2 | ⟨_, hcore2⟩
        · rcases step_error_some hcase2 with hcase3 | ⟨_, hcore3⟩
          · have h1k := renameCore_error env data state e4 hcase3
            omega
          · have h2k := visibilityCore_error env data _ e4 hcore3
            omega
        · have h3k := secretsCore_error env data _ e4 hcore2
          omega
      · have h4k := variablesCore_error env data _ e4 hcore
        omega
  have hx5 : upd5 env data state =
      ⟨(upd4 env data state).calls ++ (hardwareCore env data (upd4 env data state).state).calls,
        (hardwareCore env data (upd4 env data state).state).error,
        (hardwareCore env data (upd4 env data state).state).state⟩ := by
    rw [show upd5 env data state = step (hardwareCore env data) (upd4 env data state) from rfl,
      step_ok h4]
  have hhwerr : (hardwareCore env data (upd4 env data state).state).error = some e := by
    have htmp := h5
    rw [hx5] at htmp
    exact htmp
  have hhwstate : (hardwareCore env data (upd4 env data state).state).state =
      (upd4 env data state).state := by
    rcases hardwareCore_state env data (upd4 env data state).state with hs | ⟨hne, _⟩
    · exact hs
    · rw [hhwerr] at hne
      cases hne
  have e3 : (upd3 env data state).error = none := step_error_none h4
  have e2 : (upd2 env data state).error = none := step_error_none e3
  have e1 : (upd1 env data state).error = none := step_error_none e2
  have hren := renameCore_success env data state hname e1
  have s1 : (upd1 env data state).state =
      { state with id := TFString.value (ownerOf state.id.valueString ++ "/" ++ data.name.valueString),
                   name := data.name } := by
    rw [show upd1 env data state = renameCore env data state from rfl, hren]
  have s2 : (upd2 env data state).state = (upd1 env data state).state := by
    rw [show upd2 env data state = step (visibilityCore env data) (upd1 env data state) from rfl,
      step_ok e1]
    exact visibilityCore_state env data _
  have s3 : (upd3 env data state).state.id = (upd2 env data state).state.id ∧
      (upd3 env data state).state.name = (upd2 env data state).state.name ∧
      (upd3 env data state).state.storage = (upd2 env data state).state.storage ∧
      (upd3 env data state).state.sleepTime = (upd2 env data state).state.sleepTime := by
    rw [show upd3 env data state = step (secretsCore env data) (upd2 env data state) from rfl,
      step_ok e2]
    rcases secretsCore_state env data (upd2 env data state).state with hs | hs <;>
      exact ⟨by rw [hs], by rw [hs], by rw [hs], by rw [hs]⟩
  have s4 : (upd4 env data state).state.id = (upd3 env data state).state.id ∧
      (upd4 env data state).state.name = (upd3 env data state).state.name ∧
      (upd4 env data state).state.storage = (upd3 env data state).state.storage ∧
      (upd4 env data state).state.sleepTime = (upd3 env data state).state.sleepTime := by
    rw [show upd4 env data state = step (variablesCore env data) (upd3 env data state) from rfl,
      step_ok e3]
    rcases variablesCore_state env data (upd3 env data state).state with hs | hs <;>
      exact ⟨by rw [hs], by rw [hs], by rw [hs], by rw [hs]⟩
  have hc5 : (upd5 env data state).calls =
      (upd4 env data state).calls ++ (hardwareCore env data (upd4 env data state).state).calls := by
    rw [hx5]
  have hs5 : (upd5 env data state).state = (upd4 env data state).state := by
    rw [hx5]
    exact hhwstate
  refine ⟨by rw [h5]; simp, ?_, ?_, ?_, ?_, ?_⟩
  · intro x hx
    rw [hc5] at hx
    simp only [List.mem_append] at hx
    rcases hx with hx | hx
    · rcases step_calls hx with hx | ⟨st, hx⟩
      · rcases step_calls hx with hx | ⟨st, hx⟩
        · rcases step_calls hx with hx | ⟨st, hx⟩
          · have := renameCore_calls env data state x hx
            omega
          · have := visibilityCore_calls env data st x hx
            omega
        · have := secretsCore_calls env data st x hx
          omega
      · have := variablesCore_calls env data st x hx
        omega
    · have := hardwareCore_calls env data _ x hx
      omega
  · rw [hs5, s4.1, s3.1, s2, s1]
  · rw [hs5, s4.2.1, s3.2.1, s2, s1]
  · rw [hs5, s4.2.2.1, s3.2.2.1, s2, s1]
  · rw [hs5, s4.2.2.2, s3.2.2.2, s2, s1]

/-- Environment for the C6 witness: hardware replies 500, all else succeeds. -/
def c6Env : UpdateEnv := { okEnv with setHardware := .reply 500 true }

/-- Witness for claim C6 at concrete inputs: rename succeeded, hardware
failed with status 500; the pass errors out, the working state carries the
post-rename identifier, and storage is untouched. -/
theorem claim6_hardware_failure_after_rename_witness :
    (updateSpace c6Env c1Data c1State).error ≠ none ∧
    (updateSpace c6Env c1Data c1State).state.id = TFString.value "alice/new" ∧
    (updateSpace c6Env c1Data c1State).state.storage = c1State.storage := by
  have h := claim6_hardware_failure_after_rename c6Env c1Data c1State (by decide)
    (Or.inr ⟨500, by decide⟩)
  exact ⟨h.1, h.2.2.1.trans (by decide), h.2.2.2.2.1⟩

/-- The add phase of Create only ever fails with an add error, never with
the response-shape error. -/
theorem createAddPhase_error (cenv : CreateEnv) (d : SpaceResourceModel) (e : CErr)
    (h : (createAddPhase cenv d).2 = some e) : e ≠ CErr.invalidResponse := by
  unfold createAddPhase at h
  by_cases hsec : (!d.secrets.isNull && !d.secrets.isUnknown) = true
  · rw [if_pos hsec] at h
    simp only at h
    rcases hs : (runAdds cenv.addSecret ApiCall.addSecret CErr.addSecretTransport CErr.addSecretApi
        d.id.valueString d.secrets.elements).2 with _ | e1
    · rw [hs] at h
      simp only at h
      by_cases hv : (!d.vars.isNull && !d.vars.isUnknown) = true
      · rw [if_pos hv] at h
        rcases hv2 : (runAdds cenv.addVariable ApiCall.addVariable CErr.addVariableTransport
            CErr.addVariableApi d.id.valueString d.vars.elements).2 with _ | e2
        · rw [hv2] at h; simp at h
        · rw [hv2] at h
          simp only [Option.some.injEq] at h
          subst h
          rcases runAdds_error _ _ _ _ _ _ _ hv2 with ⟨k, rfl⟩ | ⟨k, n2, rfl⟩ <;> simp
      · rw [if_neg hv] at h
        simp at h
    · rw [hs] at h
      simp only [Option.some.injEq] at h
      subst h
      rcases runAdds_error _ _ _ _ _ _ _ hs with ⟨k, rfl⟩ | ⟨k, n2, rfl⟩ <;> simp
  · rw [if_neg hsec] at h
    simp only at h
    by_cases hv : (!d.vars.isNull && !d.vars.isUnknown) = true
    · rw [if_pos hv] at h
      rcases hv2 : (runAdds cenv.addVariable ApiCall.addVariable CErr.addVariableTransport
          CErr.addVariableApi d.id.valueString d.vars.elements).2 with _ | e2
      · rw [hv2] at h; simp at h
      · rw [hv2] at h
        simp only [Option.some.injEq] at h
        subst h
        rcases runAdds_error _ _ _ _ _ _ _ hv2 with ⟨k, rfl⟩ | ⟨k, n2, rfl⟩ <;> simp
    · rw [if_neg hv] at h
      simp at h

/-- Claim C9: given a creation POST that returned status 200 with a decoded
body, Create fails with the response-shape error exactly when the body has
no `name` field of string type; and when the field is present, its value is
assigned as the resource identifier of the working state. -/
theorem claim9_create_shape (cenv : CreateEnv) (data : SpaceResourceModel)
    (body : List (String × Json))
    (hdec : cenv.createRepo = CreateOutcome.reply 200 (some body)) :
    ((createSpace cenv data).error = some CErr.invalidResponse ↔ nameField body = none) ∧
    (∀ nm, nameField body = some nm →
      (createSpace cenv data).state.id = TFString.value nm) := by
  unfold createSpace
  rw [hdec]
  simp only [if_true]
  rcases hnf : nameField body with _ | nm0
  · constructor
    · simp
    · intro nm hcontra
      cases hcontra
  · simp only
    constructor
    · constructor
      · intro hciv
        exact absurd rfl (createAddPhase_error cenv _ _ hciv)
      · intro hcontra
        cases hcontra
    · intro nm hnm
      injection hnm with hnm
      subst hnm
      rfl

/-- Decoded creation response carrying a string `name` field. -/
def c9Body : List (String × Json) := [("name", Json.str "alice/space"), ("url", Json.num 1)]

/-- Environment for the C9 witness. -/
def c9Env : CreateEnv :=
  { createRepo := .reply 200 (some c9Body),
    addSecret := fun _ => .reply 200, addVariable := fun _ => .reply 200 }

/-- Witness for claim C9 at concrete inputs. -/
theorem claim9_create_shape_witness :
    ((createSpace c9Env baseState).error = some CErr.invalidResponse ↔ nameField c9Body = none) ∧
    (createSpace c9Env baseState).state.id = TFString.value "alice/space" := by
  have h := claim9_create_shape c9Env baseState c9Body rfl
  exact ⟨h.1, h.2 "alice/space" (by decide)⟩

/-- Claim C8 (amended): every request body built by Create, Update and
Delete equals the structured JSON serialization of its fields — hence is
well-formed JSON whose fields decode back to the inputs — provided every
interpolated string is free of quotes, backslashes and control characters.
(The interpolation performs no escaping, so this restriction is necessary:
see the counterexample.) -/
theorem claim8_bodies_serialized_when_benign (d : SpaceResourceModel)
    (fromRepo toRepo k v : String)
    (hname : benignStr d.name.valueString = true)
    (hsdk : benignStr d.sdk.valueString = true)
    (htpl : benignStr d.template.valueString = true)
    (hhw : benignStr d.hardware.valueString = true)
    (hst : benignStr d.storage.valueString = true)
    (hfrom : benignStr fromRepo = true) (hto : benignStr toRepo = true)
    (hk : benignStr k = true) (hv : benignStr v = true) :
    createReqBody d = Json.render (createJson d) ∧
    renameReqBody fromRepo toRepo = Json.render (renameJson fromRepo toRepo) ∧
    (∀ b : Bool, visibilityReqBody b = Json.render (visibilityJson b)) ∧
    kvReqBody k v = Json.render (kvJson k v) ∧
    keyReqBody k = Json.render (keyJson k) ∧
    hardwareReqBody d.hardware.valueString = Json.render (hardwareJson d.hardware.valueString) ∧
    storageReqBody d.storage.valueString = Json.render (storageJson d.storage.valueString) ∧
    (∀ n : Int, sleepTimeReqBody n = Json.render (sleepTimeJson n)) ∧
    deleteReqBody d.name.valueString = Json.render (deleteJson d.name.valueString) := by
  refine ⟨?_, ?_, ?_, ?_, ?_, ?_, ?_, ?_, ?_⟩
  · have h : Json.render (createJson d) =
        "\x7b\"type\": \"space\", \"name\": \"" ++ (escape d.name.valueString ++
        ("\", \"private\": " ++ (boolStr d.priv.valueBool ++
        (", \"sdk\": \"" ++ (escape d.sdk.valueString ++
        ("\", \"template\": \"" ++ (escape d.template.valueString ++
        ("\", \"hardware\": \"" ++ (escape d.hardware.valueString ++
        ("\", \"storage\": \"" ++ (escape d.storage.valueString ++
        ("\", \"sleepTime\": " ++ (intStr d.sleepTime.valueInt64 ++ "\x7d"))))))))))))) := rfl
    rw [escape_id _ hname, escape_id _ hsdk, escape_id _ htpl, escape_id _ hhw,
      escape_id _ hst] at h
    exact h.symm
  · have h : Json.render (renameJson fromRepo toRepo) =
        "\x7b\"fromRepo\": \"" ++ (escape fromRepo ++
        ("\", \"toRepo\": \"" ++ (escape toRepo ++ "\", \"type\": \"space\"\x7d"))) := rfl
    rw [escape_id _ hfrom, escape_id _ hto] at h
    exact h.symm
  · intro b
    rfl
  · have h : Json.render (kvJson k v) =
        "\x7b\"key\": \"" ++ (escape k ++ ("\", \"value\": \"" ++ (escape v ++ "\"\x7d"))) := rfl
    rw [escape_id _ hk, escape_id _ hv] at h
    exact h.symm
  · have h : Json.render (keyJson k) = "\x7b\"key\": \"" ++ (escape k ++ "\"\x7d") := rfl
    rw [escape_id _ hk] at h
    exact h.symm
  · have h : Json.render (hardwareJson d.hardware.valueString) =
        "\x7b\"flavor\": \"" ++ (escape d.hardware.valueString ++ "\"\x7d") := rfl
    rw [escape_id _ hhw] at h
    exact h.symm
  · have h : Json.render (storageJson d.storage.valueString) =
        "\x7b\"tier\": \"" ++ (escape d.storage.valueString ++ "\"\x7d") := rfl
    rw [escape_id _ hst] at h
    exact h.symm
  · intro n
    rfl
  · have h : Json.render (deleteJson d.name.valueString) =
        "\x7b\"type\": \"space\", \"name\": \"" ++ (escape d.name.valueString ++ "\"\x7d") := rfl
    rw [escape_id _ hname] at h
    exact h.symm

/-- Desired config whose name contains a double quote. -/
def c8Bad : SpaceResourceModel := { baseState with name := .value "demo\"x" }

/-- Claim C8 counterexample: with a double quote in the name, the Create
request body built by string interpolation is not well-formed JSON and is
not the structured serialization of its fields (which would have been
well-formed). -/
theorem claim8_counterexample :
    isValidJson (createReqBody c8Bad) = false ∧
    createReqBody c8Bad ≠ Json.render (createJson c8Bad) ∧
    isValidJson (Json.render (createJson c8Bad)) = true := by decide

/-- Witness for the amended claim C8 at concrete benign inputs. -/
theorem claim8_bodies_serialized_when_benign_witness :
    createReqBody baseState = Json.render (createJson baseState) ∧
    kvReqBody "API_KEY" "v1" = Json.render (kvJson "API_KEY" "v1") := by
  have h := claim8_bodies_serialized_when_benign baseState "alice/space" "alice/new" "API_KEY" "v1"
    (by decide) (by decide) (by decide) (by decide) (by decide) (by decide) (by decide)
    (by decide) (by decide)
  exact ⟨h.1, h.2.2.2.1⟩
